import Mathlib

/-!
# Verification of the txjson schema/value engine

A shallow embedding, in Lean 4, of the core of the `txjson` library
(`src/ast.ts`, `src/schema.ts`, `src/index.ts`): the value-node tree, the
schema registry with its wildcard dispatch, the built-in validators, the
type-algebra descriptors (`Literal`, `Maybe`, `ArrayOf`, `ArrayFixed`,
`TObject`, `OneOf`, `Terminal`, `Alias`, `Class`) and the self-hosting
schema bootstrap (`createSchemaOfSchema`).

Design of the embedding:

* Host (JavaScript) runtime values reachable through `rawValue`/`value` are
  modelled by `JSValue`.  JS numbers are modelled by `ℚ` (all numeric
  literals relevant here are exact); `NaN` has its own constructor.
  `null` and `undefined` are distinct values, as in the host.
* Registries store *codes* (`VCode`, `DCode`, `PCode`): first-order
  defunctionalised versions of every validator/deserializer closure that the
  source can put into a schema table.  `evalV`/`evalD` interpret the codes;
  closures that in the source capture `baseSchema` carry it as a field.
  Higher-order combinators that general theorems quantify over
  (`oneOfValidatorF`, `tobjValidatorF`, …) are ordinary Lean functions and
  the interpreter delegates to them, so each source function is embedded
  exactly once.
* JS object tables are association lists `List (String × Option α)`; a key
  present with value `undefined` (`none`) is distinguishable from an absent
  key, which is essential to mirror the `in` operator versus `??` lookups.
* Node-to-parent links are represented by passing the list of ancestors
  (innermost first) alongside each node during traversals.
* Errors (`ValueError`) are modelled structurally (`EMsg`, `VErr`): the
  message constructors mirror the format strings of the source; exact host
  string interpolation of floats is abstracted.
* Exceptions are `Except VErr`; a validator returning `Error | void`
  is `Option VErr`.
* Recursion through registry lookups (a named type may refer to itself) is
  not structural, so the interpreters take explicit fuel; all concrete
  computations in this file terminate long before the supplied fuel runs
  out, and fuel exhaustion surfaces as a distinguished error.
-/

set_option maxHeartbeats 1600000
set_option maxRecDepth 8000

namespace TxJSON

/-- Node kinds (`NodeKind` in `schema.ts`). -/
inductive NodeKind where
  | primitive
  | typed
  | proto
  | classK
  | array
  | object
  | pair
  deriving DecidableEq, Repr

/-- Preprocessor codes: the only preprocessor closure the modelled core
installs is the `":document"` hook of `createSchemaOfSchema`, which records
every top-level key of the schema document into `meta.knownTypes`. -/
inductive PCode where
  | docPre
  deriving DecidableEq, Repr

mutual

/-- Host values (`TxJsonValue` plus the meta-level values produced by the
bootstrap: type-algebra objects and assembled schemas).  `protoInst` and
`classInst` stand for `Object.assign(Object.create(proto), …)` and
`new classes[name](…args)` respectively, abstracting host object identity. -/
inductive JSValue where
  | null | undef | nan
  | bool (b : Bool)
  | num (q : ℚ)
  | str (s : String)
  | bigint (i : ℤ)
  | regexp (source flags : String)
  | arr (elems : List JSValue)
  | obj (fields : List (String × JSValue))
  | tyv (t : Ty)
  | schemav (s : SchemaRepr)
  | protoInst (name : String) (fields : List (String × JSValue))
  | classInst (name : String) (args : List JSValue)
  /-- the `ValueAccessor` object itself leaking into the value domain
  (the `float`/`number` deserializers return `v`, the accessor, when
  `rawValue` is `null`). -/
  | accessorRef

/-- Type-algebra descriptors (`Schema.Type` subclasses in `schema.ts`).
Variants whose getters read `this.baseSchema` carry that schema; the others
(`Maybe`, `ArrayOf`, `ArrayFixed`, `OneOf`, `Terminal`) never consult it in
their `validator`/`deserializer`/`signature` getters and so do not store it. -/
inductive Ty where
  | literal (base : SchemaRepr) (type : String) (value : JSValue)
  | maybe (inner : Option Ty)
  | arrayOf (inner : Ty)
  | arrayFixed (types : List Ty) (label : String)
  | tobject (base : SchemaRepr) (fields : Option (List (String × Ty)))
  | oneOf (types : List Ty) (ns : Option String)
  | terminal (name : String)
  | alias (base : SchemaRepr) (fromKey : Option String) (toKey : String)
  | cls (base : SchemaRepr) (className : String) (args : Option Ty)

/-- Validator codes: one constructor per validator closure shape the source
can store in a `validators` table.  `prim`/`intCheck`/`uintCheck`/
`boundCheck` correspond to `createPrimitiveValidator`/`createIntValidator`/
`createUintValidator`/`createBoundNumberValidator` (the check constructors
are the inner chain closures); `bigintStrCheck`/`objectCheck`/`arrayBuiltin`
are the ad-hoc built-ins of `createSchema`; `arrValid`/`sigValid` are
`createArrayValidator`/`createSignatureValidator`; the `meta*` codes are the
closures of `schemaValidators` in the bootstrap; `ofTy` is `t.validator` for
a type-algebra object `t`. -/
inductive VCode where
  | ofTy (t : Ty)
  | prim (types : List String) (chain : Option VCode)
  | intCheck (types : String) (chain : Option VCode)
  | uintCheck (types : String) (chain : Option VCode)
  | boundCheck (types : String) (lower upper : ℚ) (chain : Option VCode)
  | bigintStrCheck
  | objectCheck
  | arrayBuiltin
  | arrValid (type : String) (elem : Option VCode)
  | sigValid (signatures : List String) (vals : List VCode)
  | metaArrayV | metaObjectV | metaDocV | metaSchemaV
  | metaMaybeV | metaOneOfV | metaArrayOfV | metaClassV | metaProtoV
  | metaObjDeclV
  | metaStarV (base : SchemaRepr)

/-- Deserializer codes, analogously: the defined built-ins of
`createSchema.deserializers`, the bootstrap deserializers of
`createSchemaOfSchema`, and `ofTyD t` for `t.deserializer`. -/
inductive DCode where
  | ofTyD (t : Ty)
  | bigintD | undefD | intD | floatD | numberD
  | metaKeyD (base : SchemaRepr) (k : String)
  | schemaD (base : SchemaRepr)
  | undefTermD (base : SchemaRepr)
  | objectDeclD (base : SchemaRepr)
  | protoDeclD (base : SchemaRepr)
  | classDeclD (base : SchemaRepr)
  | maybeDeclD (base : SchemaRepr)
  | oneOfDeclD (base : SchemaRepr)
  | arrayOfDeclD (base : SchemaRepr)
  | starMetaD (base : SchemaRepr)

/-- A schema registry (`Schema` in `schema.ts`): the five string-keyed
tables plus the `meta.knownTypes` set.  `classes`/`prototypes` are modelled
by their key sets (their values are host constructors, only membership is
consulted by the embedded operations except construction itself, which is
abstracted by `JSValue.classInst`/`JSValue.protoInst`). -/
inductive SchemaRepr where
  | mk (classes : List String)
       (prototypes : List String)
       (validators : List (String × Option VCode))
       (deserializers : List (String × Option DCode))
       (preprocessors : List (String × Option PCode))
       (knownTypes : List String)

end

namespace SchemaRepr

def classes : SchemaRepr → List String
  | .mk c _ _ _ _ _ => c

def prototypes : SchemaRepr → List String
  | .mk _ p _ _ _ _ => p

def validators : SchemaRepr → List (String × Option VCode)
  | .mk _ _ v _ _ _ => v

def deserializers : SchemaRepr → List (String × Option DCode)
  | .mk _ _ _ d _ _ => d

def preprocessors : SchemaRepr → List (String × Option PCode)
  | .mk _ _ _ _ p _ => p

def knownTypes : SchemaRepr → List String
  | .mk _ _ _ _ _ k => k

end SchemaRepr

/-- `typeof v` of the host. -/
def jsTypeof : JSValue → String
  | .null => "object"
  | .undef => "undefined"
  | .nan => "number"
  | .bool _ => "boolean"
  | .num _ => "number"
  | .str _ => "string"
  | .bigint _ => "bigint"
  | _ => "object"

/-- `v === null || v === undefined` (the test performed by `??` and by the
`Maybe` short-circuits). -/
def isNullish : JSValue → Bool
  | .null => true
  | .undef => true
  | _ => false

/-- `Array.isArray v`. -/
def isJsArray : JSValue → Bool
  | .arr _ => true
  | _ => false

/-- `v === null` (strict, excludes `undefined`). -/
def isJsNull : JSValue → Bool
  | .null => true
  | _ => false

/-- Keys of a host object (`Object.keys`); non-objects have none. -/
def jsKeys : JSValue → List String
  | .obj fs => fs.map Prod.fst
  | _ => []

/-- `target[k] = v` on a JS object: overwrite in place if the key exists
(keeping its position), otherwise append. -/
def upsert (fs : List (String × JSValue)) (k : String) (v : JSValue) :
    List (String × JSValue) :=
  match fs with
  | [] => [(k, v)]
  | (k', v') :: rest =>
    if k' = k then (k', v) :: rest else (k', v') :: upsert rest k v

/-- JS array index assignment `a[i] = x` for `i ≤ a.length` (update in
place, or append at the end; sparse assignment beyond the length does not
occur in the modelled code paths). -/
def jsSetIdx {α : Type} (l : List α) (i : Nat) (a : α) : List α :=
  match l, i with
  | [], _ => [a]
  | _ :: rest, 0 => a :: rest
  | x :: rest, i + 1 => x :: jsSetIdx rest i a

/-! ## Schema tables

A JS object used as a table is a `List (String × Option α)`: the outer
position models the `in` operator (key presence), the inner `Option` models
a key stored with value `undefined` (as `createSchemaOfSchema` does when it
masks the base validators).  `tableGet` is `tbl[k]` up to the presence
distinction; `tableVal` is the JS expression `tbl[k]` collapsed the way `??`
and truthiness tests see it. -/

/-- Presence-aware lookup: `none` = key absent, `some none` = key present
with value `undefined`. -/
def tableGet {α : Type} (t : List (String × Option α)) (k : String) :
    Option (Option α) :=
  (t.find? (fun e => e.1 = k)).map Prod.snd

/-- The `in` operator: `k in tbl`. -/
def hasKey {α : Type} (t : List (String × Option α)) (k : String) : Bool :=
  (tableGet t k).isSome

/-- `tbl[k]` as consumed by `??` / `?.` (absent and `undefined` collapse). -/
def tableVal {α : Type} (t : List (String × Option α)) (k : String) :
    Option α :=
  (tableGet t k).bind id

/-- `tbl[k] ?? tbl["*"]`: the specific-then-wildcard lookup used by the
node getters. -/
def tableValStar {α : Type} (t : List (String × Option α)) (k : String) :
    Option α :=
  (tableVal t k).orElse (fun _ => tableVal t "*")

/-- `Object.assign(a, b)` on tables: upsert every entry of `b` into `a`
in order (existing keys keep their position, new keys are appended). -/
def assignTable {α : Type} (a b : List (String × Option α)) :
    List (String × Option α) :=
  b.foldl (fun acc e =>
    if acc.any (fun e' => e'.1 = e.1) then
      acc.map (fun e' => if e'.1 = e.1 then (e'.1, e.2) else e')
    else acc ++ [e]) a

/-- `Set.add` (`meta.knownTypes.add`): insert if not present. -/
def setAdd (s : List String) (k : String) : List String :=
  if s.contains k then s else s ++ [k]

/-! ## Value nodes

One constructor per concrete `ASTNode` subclass of `ast.ts`
(`PrimitiveNode`, `TypedValueNode`, `ProtoConstructionNode`,
`CtorCallValueNode`, `ArrayNode`, `ObjectNode`, `PairNode`).  The `text`
field carries `extractRuleValueText`/`rule.getText()` for the nodes whose
text the modelled deserializers read (primitive and typed nodes); parent
pointers are reconstructed by passing ancestor lists during traversals. -/
inductive Node where
  | prim (typeName : String) (raw : JSValue) (text : String)
  | typed (typeName : String) (text : String) (child : Option Node)
  | protoNode (typeName : String) (child : Option Node)
  | ctorNode (typeName : String) (children : List Node)
  | arrNode (children : List Node)
  | objNode (children : List Node)
  | pairNode (key : String) (child : Option Node)

namespace Node

/-- `typeName`: the stored tag for primitive/typed/proto/class nodes; the
constructors of `ArrayNode`/`ObjectNode`/`PairNode` fix `":array"`,
`":object"`, `":pair"`. -/
def typeName : Node → String
  | prim t _ _ => t
  | typed t _ _ => t
  | protoNode t _ => t
  | ctorNode t _ => t
  | arrNode _ => ":array"
  | objNode _ => ":object"
  | pairNode _ _ => ":pair"

def kind : Node → NodeKind
  | prim _ _ _ => .primitive
  | typed _ _ _ => .typed
  | protoNode _ _ => .proto
  | ctorNode _ _ => .classK
  | arrNode _ => .array
  | objNode _ => .object
  | pairNode _ _ => .pair

/-- The `children` getter: `[]` for primitives, `child ? [child] : []` for
the `SimpleNode` subclasses, the stored array for `CompoundNode`s. -/
def childrenView : Node → List Node
  | prim _ _ _ => []
  | typed _ _ c => c.toList
  | protoNode _ c => c.toList
  | pairNode _ c => c.toList
  | ctorNode _ cs => cs
  | arrNode cs => cs
  | objNode cs => cs

/-- The `key` getter (`undefined` except on pair nodes). -/
def keyStr : Node → Option String
  | pairNode k _ => some k
  | _ => none

/-- Node text (`extractRuleValueText` for typed nodes, the processed
literal text for primitives; other kinds never have their text consulted in
the modelled paths). -/
def text : Node → String
  | prim _ _ t => t
  | typed _ t _ => t
  | _ => ""

mutual

/-- `rawValue`: recursively built from children, with no registry lookup.
`PrimitiveNode` returns the stored literal; the `SimpleNode` subclasses
return `child?.rawValue` (so `undefined` when there is no child);
`ArrayNode`/`CtorCallValueNode` map over children;
`ObjectNode` folds its pairs into a host object (later duplicates
overwrite). -/
def rawValue : Node → JSValue
  | prim _ v _ => v
  | typed _ _ (some c) => rawValue c
  | typed _ _ none => .undef
  | protoNode _ (some c) => rawValue c
  | protoNode _ none => .undef
  | pairNode _ (some c) => rawValue c
  | pairNode _ none => .undef
  | ctorNode _ cs => .arr (rawValueList cs)
  | arrNode cs => .arr (rawValueList cs)
  | objNode cs => .obj (rawValuePairs cs [])

def rawValueList : List Node → List JSValue
  | [] => []
  | c :: cs => rawValue c :: rawValueList cs

/-- The `ObjectNode.rawValue` fold: `reduce(Object.assign(p, {[n.key]:
n.rawValue}), {})` over the pair children (a pair's `rawValue` is its
child's). -/
def rawValuePairs : List Node → List (String × JSValue) →
    List (String × JSValue)
  | [], fs => fs
  | pairNode k (some pc) :: cs, fs => rawValuePairs cs (upsert fs k (rawValue pc))
  | pairNode k none :: cs, fs => rawValuePairs cs (upsert fs k .undef)
  | c :: cs, fs =>
    rawValuePairs cs (upsert fs ((keyStr c).getD "undefined") (rawValue c))

end

end Node

/-- `getNamespace` (`schema.ts`): walk from the node through its ancestors
(stopping at a `":root"` tag, which never occurs in built trees), remember
the last `":pair"` seen, and return its key — i.e. the key of the outermost
enclosing pair, the top-level declaration name. -/
def getNamespace (ctx : List Node) (n : Node) : Option String :=
  (((n :: ctx).takeWhile (fun m => m.typeName ≠ ":root")).filter
      (fun m => m.typeName = ":pair")).getLast?.bind Node.keyStr

/-! ## Errors

`ValueError` of `util.ts`, modelled structurally: `msg` is the message
payload (constructors named after the source format strings; messages whose
exact host string does not matter to any claim are collapsed into `text`),
`simplified` is the flag that composite validators set on nested errors
before embedding them.  The source-location/expression prefix added by
`ValueError.message` is not modelled. -/

mutual

inductive EMsg where
  /-- `unknown type ${JSON.stringify(typeName)}` -/
  | unknownType (typeName : String)
  /-- `unknown prototype ${...}` -/
  | unknownPrototype (typeName : String)
  /-- `unknown class ${...}` -/
  | unknownClass (typeName : String)
  /-- `missing field ${JSON.stringify(k)} of type: ${String(optional)}` -/
  | missingField (k : String)
  /-- `unknown field ${JSON.stringify(k)} in object` -/
  | unknownField (k : String)
  /-- `missing index ${i} of type: \`${sig}\`` -/
  | missingIndex (i : Nat) (sig : String)
  /-- `${label} length mismatch` -/
  | lengthMismatch (label : String)
  /-- a composite error whose message enumerates sub-key → nested error
  (object fields, fixed-array indices, union alternatives, constructor
  arguments); `header` abstracts the leading text with the signature. -/
  | composedV (header : String) (parts : List (String × VErr))
  /-- `could not deserialize value of type ${signature}: …` thrown by the
  `OneOf` deserializer; lists only the errors *thrown* during the try. -/
  | oneOfDeserFailed (signature : String) (errs : List VErr)
  /-- any other simple message, carried as the interpolated string. -/
  | text (s : String)
  /-- a point where the host program would crash with a `TypeError`
  (e.g. calling an `undefined` table entry). -/
  | jsTypeError (s : String)
  /-- interpreter fuel exhaustion (unreachable at the fuel used here). -/
  | fuelOut

inductive VErr where
  | mk (msg : EMsg) (simplified : Bool)

end

namespace VErr

def msg : VErr → EMsg
  | .mk m _ => m

def simplified : VErr → Bool
  | .mk _ s => s

/-- `if (e instanceof ValueError) e.simplified = true` (every error in the
model is a `ValueError`). -/
def simplify : VErr → VErr
  | .mk m _ => .mk m true

end VErr

/-- `s.startsWith(tag)`, reduced to a character-list computation so the
kernel can evaluate it. -/
def strStartsWith (s tag : String) : Bool :=
  tag.data.isPrefixOf s.data

/-- Substring containment, the semantics of `/class|proto|object/.test(s)`
(a definitionally evaluable stand-in for the host regex `test`). -/
def strContainsAux (sub : List Char) : List Char → Bool
  | [] => sub.isEmpty
  | c :: rest => sub.isPrefixOf (c :: rest) || strContainsAux sub rest

def strContains (s sub : String) : Bool :=
  strContainsAux sub.data s.data

/-- `isValidIdent` (`util.ts`): `/^[$_\w\d][\w\d_$]*$/`. -/
def isValidIdent (s : String) : Bool :=
  let ok := fun c : Char => c.isAlphanum || c = '_' || c = '$'
  s.length > 0 && s.toList.all ok

/-- Decimal rendering of a rational for interpolated messages and
signatures.  Integral values print exactly as the host does; the host's
shortest-round-trip float formatting for non-integral values is abstracted
by `num/den` notation (no claim depends on those strings). -/
def numToString (q : ℚ) : String :=
  if q.den = 1 then toString q.num
  else toString q.num ++ "/" ++ toString q.den

/-- `JSON.stringify` on the modelled values, to the extent the interpolated
messages and signatures need it. -/
def jsonStringify : JSValue → String
  | .null => "null"
  | .undef => "undefined"
  | .nan => "null"
  | .bool b => if b then "true" else "false"
  | .num q => numToString q
  | .str s => "\"" ++ s ++ "\""
  | .bigint i => toString i
  | .regexp _ _ => "{}"
  | .arr _ => "[...]"
  | .obj _ => "{...}"
  | _ => "{}"

/-- The test `^[-+]?\d+$` used by the built-in `bigint` validator. -/
def bigintStrOk (s : String) : Bool :=
  let body :=
    match s.toList with
    | '-' :: rest => rest
    | '+' :: rest => rest
    | l => l
  body.length > 0 && body.all Char.isDigit

/-- `BigInt(text)` on a string: parses an optionally signed decimal
integer, `none` when the host would throw a `SyntaxError`.  (The hex/octal
forms accepted by the host do not occur in the modelled inputs.) -/
def parseBigInt? (s : String) : Option ℤ :=
  let (sign, body) :=
    match s.toList with
    | '-' :: rest => ((-1 : ℤ), rest)
    | '+' :: rest => ((1 : ℤ), rest)
    | l => ((1 : ℤ), l)
  if body.length > 0 && body.all Char.isDigit then
    some (sign * (body.foldl (fun acc c => acc * 10 + (c.toNat - '0'.toNat)) 0 : ℕ))
  else
    none

/-! ## Type signatures

`signature` getters of the `Schema.Type` variants. -/

mutual

def Ty.signature : Ty → String
  | .literal _ type value =>
    let typeName := if strStartsWith type ":" then type.drop 1 else type
    (if isValidIdent typeName then typeName else jsonStringify (.str typeName))
      ++ "(" ++ jsonStringify value ++ ")"
  | .maybe (some t) => Ty.signature t ++ "?"
  | .maybe none => "?"
  | .arrayOf t =>
    let s := Ty.signature t
    (if isValidIdent s then s else "(" ++ s ++ ")") ++ "[]"
  | .arrayFixed ts _ => "[" ++ String.intercalate ", " (Ty.signatureList ts) ++ "]"
  | .tobject _ none => "object"
  | .tobject _ (some fields) =>
    "object \x7b " ++ String.intercalate ", " (Ty.fieldSignatureList fields) ++ " \x7d"
  | .oneOf ts _ => String.intercalate "|" (Ty.oneOfSignatureList ts)
  | .terminal name => name
  | .alias _ _ toKey => toKey
  | .cls _ className _ => "class " ++ className

def Ty.signatureList : List Ty → List String
  | [] => []
  | t :: ts => Ty.signature t :: Ty.signatureList ts

def Ty.fieldSignatureList : List (String × Ty) → List String
  | [] => []
  | (k, t) :: fs =>
    (jsonStringify (.str k) ++ ": " ++ Ty.signature t) :: Ty.fieldSignatureList fs

/-- `OneOf.signature` parenthesises non-identifier `Terminal`/`Alias`
member signatures. -/
def Ty.oneOfSignatureList : List Ty → List String
  | [] => []
  | t :: ts =>
    let s := Ty.signature t
    let wrap :=
      !isValidIdent s &&
        (match t with
         | .terminal _ => true
         | .alias _ _ _ => true
         | _ => false)
    (if wrap then "(" ++ s ++ ")" else s) :: Ty.oneOfSignatureList ts

end

/-- `t instanceof Maybe`. -/
def Ty.isMaybe : Ty → Bool
  | .maybe _ => true
  | _ => false

/-! ## Higher-order validator/deserializer combinators

The composite validators of the type algebra, as functions over abstract
sub-validators; `evalTyV`/`evalTyD` below instantiate them.  A validator is
`List Node → Node → Option VErr` (ancestor context, node); a deserializer
is `List Node → Node → Except VErr JSValue`. -/

def ValidatorF : Type := List Node → Node → Option VErr

def DeserializerF : Type := List Node → Node → Except VErr JSValue

/-- `errors[sig] = errors[sig] ?? []; errors[sig].push(e)`. -/
def pushGrouped (errors : List (String × List VErr)) (k : String) (e : VErr) :
    List (String × List VErr) :=
  if errors.any (fun g => g.1 = k) then
    errors.map (fun g => if g.1 = k then (g.1, g.2 ++ [e]) else g)
  else errors ++ [(k, [e])]

/-- `Object.entries(errors).flatMap(([k, errs]) => errs.map(e => …))`. -/
def flattenGroups (errors : List (String × List VErr)) : List (String × VErr) :=
  errors.flatMap (fun g => g.2.map (fun e => (g.1, e)))

/-- The all-alternatives-failed error of `OneOf.validator`:
`expected: \`sig\`, validation failed with errors: * alternative \`k\`
failed with error: …` for every collected failure. -/
def oneOfComposedErr (signature : String) (errors : List (String × List VErr)) :
    VErr :=
  .mk (.composedV ("expected: `" ++ signature ++ "`, validation failed with errors")
        (flattenGroups errors)) false

/-- The ordered try of `Schema.OneOf.validator` (`schema.ts` 790-820):
each alternative's validator runs on `acc` itself; the first that reports
no error wins; a reported error is marked `simplified` and collected under
the alternative's signature; when every alternative has failed the composed
error lists them all.  (The `catch`-and-ignore arm is for validators that
throw, which the embedded validators never do.) -/
def oneOfTryV (signature : String) (ctx : List Node) (acc : Node) :
    List (String × ValidatorF) → List (String × List VErr) → Option VErr
  | [], errors => some (oneOfComposedErr signature errors)
  | (sig, v) :: rest, errors =>
    match v ctx acc with
    | none => none
    | some e => oneOfTryV signature ctx acc rest (pushGrouped errors sig e.simplify)

/-- `Schema.OneOf.validator` with the per-alternative
`[t.signature, t.validator]` pairs precomputed by the getter. -/
def oneOfValidatorF (children : List (String × ValidatorF)) (signature : String) :
    ValidatorF :=
  fun ctx acc => oneOfTryV signature ctx acc children []

/-- The ordered try of `Schema.OneOf.deserializer` (`schema.ts` 752-779):
the value is unwrapped (`acc.children[0]` when `acc` is a typed node), then
for each alternative, if its validator passes, its deserializer's result is
returned; an exception thrown inside the `try` (in the model: a failing
deserializer) is recorded and the try continues; at the end the recorded
errors are thrown as one composed error. -/
def oneOfTryD (signature : String) (childCtx : List Node) (child : Node) :
    List (ValidatorF × DeserializerF) → List VErr → Except VErr JSValue
  | [], errors => .error (.mk (.oneOfDeserFailed signature errors) false)
  | (v, d) :: rest, errors =>
    match v childCtx child with
    | none =>
      match d childCtx child with
      | .ok val => .ok val
      | .error e => oneOfTryD signature childCtx child rest (errors ++ [e])
    | some _ => oneOfTryD signature childCtx child rest errors

/-- `const child = acc.kind === NodeKind.Typed ? acc.children[0] : acc`
(`schema.ts` 753), with the child's ancestor context; `none` when a typed
node has no child (the host would then crash on every alternative). -/
def oneOfUnwrap (ctx : List Node) (acc : Node) :
    Option (List Node × Node) :=
  if acc.kind = NodeKind.typed then
    (acc.childrenView[0]?).map (fun c => (acc :: ctx, c))
  else some (ctx, acc)

/-- `Schema.OneOf.deserializer` with the `[t.validator, t.deserializer]`
pairs precomputed by the getter. -/
def oneOfDeserializerF (children : List (ValidatorF × DeserializerF))
    (signature : String) : DeserializerF :=
  fun ctx acc =>
    match oneOfUnwrap ctx acc with
    | some (cctx, child) => oneOfTryD signature cctx child children []
    | none =>
      .error (.mk (.oneOfDeserFailed signature
        (children.map (fun _ => .mk (.jsTypeError "undefined child") false))) false)

/-- The declared-field pass of `Schema.TObject.validator` (`schema.ts`
677-696): for each declared field, look up the first pair child with that
key and validate its child; a missing non-`Maybe` field records a
`missing field` error (already simplified); a failing present field records
its error, simplified.  `errors` accumulates in declaration order. -/
def tobjFieldsV (objCtx : List Node) (obj : Node) :
    List (String × Bool × ValidatorF) → List (String × VErr) →
    List (String × VErr)
  | [], errors => errors
  | (k, optional, validator) :: rest, errors =>
    let pairChild :=
      (obj.childrenView.find? (fun c => c.keyStr = some k)).bind
        (fun p => (p.childrenView[0]?).map (fun v => (p, v)))
    match pairChild with
    | none =>
      if optional then tobjFieldsV objCtx obj rest errors
      else tobjFieldsV objCtx obj rest (errors ++ [(k, .mk (.missingField k) true)])
    | some (p, v) =>
      match validator (p :: obj :: objCtx) v with
      | none => tobjFieldsV objCtx obj rest errors
      | some e => tobjFieldsV objCtx obj rest (errors ++ [(k, e.simplify)])

/-- The unknown-key pass of `Schema.TObject.validator` (`schema.ts`
697-705): every key of the object's `rawValue` that is not a declared
field records an `unknown field` error. -/
def tobjUnknownV (fieldKeys : List String) (rawKeys : List String) :
    List (String × VErr) :=
  (rawKeys.filter (fun k => !fieldKeys.contains k)).map
    (fun k => (k, .mk (.unknownField k) true))

/-- `Schema.TObject.validator` for a declared field set (`schema.ts`
626-722), with the `[k, [v instanceof Maybe, v.validator]]` table
precomputed by the getter and the captured `baseSchema.validators` table
abstracted as `baseValidators`.  The guard cascade, the two error-collecting
passes and the final composed error follow the source; when nothing failed
the base validator registered under the object's typeName (`":object"`),
if any, gets the last word. -/
def tobjValidatorF (baseValidators : List (String × Option ValidatorF))
    (signature : String) (validators : List (String × Bool × ValidatorF)) :
    ValidatorF :=
  fun ctx acc =>
    let objInfo :=
      if acc.typeName = ":object" then some (acc, ctx)
      else (acc.childrenView[0]?).map (fun c => (c, acc :: ctx))
    match objInfo with
    | none =>
      -- `const { rawValue } = obj` with `obj` undefined: host TypeError.
      some (.mk (.jsTypeError "cannot destructure rawValue of undefined") false)
    | some (obj, objCtx) =>
      let rv := obj.rawValue
      if obj.typeName ≠ ":object" ∨ jsTypeof acc.rawValue ≠ "object" then
        some (.mk (.text ("expected object with signature `" ++ signature ++ "`")) false)
      else if isJsArray rv then
        some (.mk (.text ("expected object, found array: " ++ jsonStringify acc.rawValue)) false)
      else if jsTypeof rv ≠ "object" then
        some (.mk (.text ("expected object, found " ++ jsonStringify acc.rawValue)) false)
      else if isJsNull rv then
        some (.mk (.text "expected object, found null") false)
      else
        let errors :=
          tobjFieldsV objCtx obj validators [] ++
            tobjUnknownV (validators.map (fun f => f.1)) (jsKeys rv)
        if !errors.isEmpty then
          some (.mk (.composedV
            ("expected object with signature `" ++ signature ++
              "`, validation failed with errors") errors) false)
        else
          match tableVal baseValidators obj.typeName with
          | some v => v objCtx obj
          | none => none

/-- The per-index pass of `Schema.ArrayFixed.validator` (`schema.ts`
860-876): index `i` present is validated by `types[i]` (failure simplified
and recorded); index absent records a `missing index` error unless the type
is `Maybe`-wrapped. -/
def afIndexV (childCtx : List Node) (children : List Node) :
    List (String × Bool × ValidatorF) → Nat → List (Nat × VErr)
  | [], _ => []
  | (sig, optional, v) :: rest, i =>
    match children[i]? with
    | some c =>
      match v childCtx c with
      | some e => (i, e.simplify) :: afIndexV childCtx children rest (i + 1)
      | none => afIndexV childCtx children rest (i + 1)
    | none =>
      if optional then afIndexV childCtx children rest (i + 1)
      else (i, .mk (.missingIndex i sig) true) :: afIndexV childCtx children rest (i + 1)

/-- `Schema.ArrayFixed.validator` (`schema.ts` 845-897): positional tuple
validation; trailing extra indices record `length mismatch` errors; any
error yields one composed error listing every failing index. -/
def arrayFixedValidatorF (types : List (String × Bool × ValidatorF))
    (signature : String) (label : String) : ValidatorF :=
  fun ctx acc =>
    let arrInfo :=
      if acc.typeName = ":array" then some (acc, ctx)
      else (acc.childrenView[0]?).map (fun c => (c, acc :: ctx))
    match arrInfo with
    | none => some (.mk (.text "invalid array") false)
    | some (arr, arrCtx) =>
      if arr.typeName ≠ ":array" then some (.mk (.text "invalid array") false)
      else
        let children := arr.childrenView
        let errors :=
          afIndexV (arr :: arrCtx) children types 0 ++
            ((List.range children.length).filter (fun j => types.length ≤ j)).map
              (fun j => (j, VErr.mk (.lengthMismatch label) true))
        if errors.isEmpty then none
        else
          some (.mk (.composedV
            ("expected " ++ label ++ " with signature `" ++ signature ++
              "`, validation failed with errors")
            (errors.map (fun e => (toString e.1, e.2)))) false)

/-! ## Built-in validator codes and the default schema (`createSchema`) -/

def createPrimitiveValidatorC (types : List String) (chain : Option VCode) :
    VCode :=
  .prim types chain

def createIntValidatorC (types : String) (accepted : List String)
    (chain : Option VCode) : VCode :=
  createPrimitiveValidatorC accepted (some (.intCheck types chain))

def createUintValidatorC (types : String) (accepted : List String)
    (chain : Option VCode) : VCode :=
  createIntValidatorC types accepted (some (.uintCheck types chain))

def createBoundNumberValidatorC (types : String) (accepted : List String)
    (lower upper : ℚ) (chain : Option VCode) : VCode :=
  createPrimitiveValidatorC accepted (some (.boundCheck types lower upper chain))

def createArrayValidatorC (type : String) (elem : Option VCode) : VCode :=
  .arrValid type elem

def createSignatureValidatorC (signatures : List String) (vals : List VCode) :
    VCode :=
  .sigValid signatures vals

def createTypedArrayValidatorC (type : String) (elem : VCode) : VCode :=
  createSignatureValidatorC [type ++ "[]"] [createArrayValidatorC type (some elem)]

/-- The `numericValidators` table (`schema.ts` 250-290), transcribed with
its exact arguments — note that `int8` is built with `createUintValidator`
and `"uint8"` labels, and that the `int16`/`uint16` entries carry the
`uint16`/`int16` labels and bounds respectively. -/
def int8C : VCode :=
  createUintValidatorC "uint8" ["number"]
    (some (createBoundNumberValidatorC "uint8" ["number"] (-128) 127 none))

def uint8C : VCode :=
  createUintValidatorC "uint8" ["number"]
    (some (createBoundNumberValidatorC "uint8" ["number"] 0 255 none))

def int16C : VCode :=
  createIntValidatorC "uint16" ["number"]
    (some (createBoundNumberValidatorC "uint16" ["number"] 0 65535 none))

def uint16C : VCode :=
  createIntValidatorC "int16" ["number"]
    (some (createBoundNumberValidatorC "int16" ["number"] (-32767) 32767 none))

def int32C : VCode :=
  createIntValidatorC "int32" ["number"]
    (some (createBoundNumberValidatorC "int32" ["number"]
      (-2147483647) 2147483647 none))

def uint32C : VCode :=
  createIntValidatorC "uint32" ["number"]
    (some (createBoundNumberValidatorC "uint32" ["number"] 0 4294967295 none))

def int64C : VCode := createIntValidatorC "int64" ["number", "bigint"] none

def uint64C : VCode := createUintValidatorC "uint64" ["number", "bigint"] none

def float32C : VCode :=
  createBoundNumberValidatorC "float32" ["number"]
    ((1175494 : ℚ) / 10 ^ 44) ((34028237 : ℚ) * 10 ^ 31) none

def float64C : VCode := createPrimitiveValidatorC ["number"] none

/-- `createSchema().validators` (`schema.ts` 371-434): the spread of
`numericValidators`, the typed-array validators, then the remaining
primitive built-ins, in object-literal insertion order. -/
def defaultValidators : List (String × Option VCode) :=
  [("int8", some int8C), ("uint8", some uint8C),
   ("int16", some int16C), ("uint16", some uint16C),
   ("int32", some int32C), ("uint32", some uint32C),
   ("int64", some int64C), ("uint64", some uint64C),
   ("float32", some float32C), ("float64", some float64C),
   ("Int8Array", some (createTypedArrayValidatorC "int8" int8C)),
   ("Uint8Array", some (createTypedArrayValidatorC "uint8" uint8C)),
   ("Uint8ClampedArray", some (createTypedArrayValidatorC "uint8" uint8C)),
   ("Int16Array", some (createTypedArrayValidatorC "int16" int16C)),
   ("Uint16Array", some (createTypedArrayValidatorC "uint16" uint16C)),
   ("Int32Array", some (createTypedArrayValidatorC "int32" int32C)),
   ("Uint32Array", some (createTypedArrayValidatorC "uint32" uint32C)),
   ("BigInt64Array", some (createTypedArrayValidatorC "int64" int64C)),
   ("BigUint64Array", some (createTypedArrayValidatorC "uint64" uint64C)),
   ("Float32Array", some (createTypedArrayValidatorC "float32" float32C)),
   ("Float64Array", some (createTypedArrayValidatorC "float64" float64C)),
   ("float", some (createPrimitiveValidatorC ["number"] none)),
   ("int", some (createIntValidatorC "int" ["number"] none)),
   ("uint", some (createUintValidatorC "uint" ["number"] none)),
   ("undefined", some (createPrimitiveValidatorC ["undefined"] none)),
   ("string", some (createPrimitiveValidatorC ["string"] none)),
   ("number", some (createPrimitiveValidatorC ["number"] none)),
   ("bigint", some (createPrimitiveValidatorC ["bigint", "string", "number"]
      (some .bigintStrCheck))),
   ("boolean", some (createPrimitiveValidatorC ["boolean"] none)),
   ("bool", some (createPrimitiveValidatorC ["boolean"] none)),
   ("object", some (createPrimitiveValidatorC ["object"] (some .objectCheck))),
   ("array", some .arrayBuiltin)]

/-- `createSchema().deserializers` (`schema.ts` 320-370): the keys present
with `undefined` values (`bool: undefined`, …) are kept as present-but-
undefined entries. -/
def defaultDeserializers : List (String × Option DCode) :=
  [("bigint", some .bigintD), ("undefined", some .undefD), ("int", some .intD),
   ("bool", none), ("boolean", none), ("float", some .floatD),
   ("number", some .numberD), ("string", none), ("any", none),
   ("object", none), ("array", none), ("null", none)]

/-- `createSchema().classes` (`schema.ts` 300-319), as a key set. -/
def defaultClasses : List String :=
  ["Uint8Array", "Uint8ClampedArray", "Int8Array", "Uint16Array", "Int16Array",
   "Uint32Array", "Int32Array", "BigInt64Array", "BigUint64Array",
   "Float32Array", "Float64Array", "Map", "Set", "Date"]

/-- `createSchema()` with no overrides = `defaultSchema`
(`schema.ts` 292-436, 1176). -/
def defaultSchemaR : SchemaRepr :=
  .mk defaultClasses [] defaultValidators defaultDeserializers [] []

/-! ## Host coercions used by the built-in deserializers -/

/-- Strict equality `a === b` on host values: value equality for
primitives, reference inequality for distinct objects (every comparison the
model performs is between a freshly parsed value and a stored one), and
`NaN === x` false. -/
def jsStrictEq : JSValue → JSValue → Bool
  | .null, .null => true
  | .undef, .undef => true
  | .bool a, .bool b => a = b
  | .num a, .num b => a = b
  | .str a, .str b => a = b
  | .bigint a, .bigint b => a = b
  | _, _ => false

/-- Leading optionally-signed decimal digits of a character list. -/
def parseDigits (sign : ℤ) : List Char → Option ℤ
  | l =>
    let digits := l.takeWhile Char.isDigit
    if digits.isEmpty then none
    else some (sign * (digits.foldl (fun acc c => acc * 10 + (c.toNat - '0'.toNat)) 0 : ℕ))

/-- `parseInt(v)`: coerce to string, parse a leading optionally-signed
integer, `NaN` otherwise. -/
def jsParseInt : JSValue → JSValue
  | .num q => .num (q.num / (q.den : ℤ) : ℤ)
  | .bigint i => .num (i : ℚ)
  | .str s =>
    let l := s.toList.dropWhile (fun c => c = ' ')
    let r :=
      match l with
      | '-' :: rest => parseDigits (-1) rest
      | '+' :: rest => parseDigits 1 rest
      | rest => parseDigits 1 rest
    match r with
    | some i => .num (i : ℚ)
    | none => .nan
  | _ => .nan

/-- Leading decimal number (sign, integer part, optional fraction) of a
character list, as the prefix-parsing `parseFloat` sees it. -/
def parseFloatChars (sign : ℤ) (l : List Char) : Option ℚ :=
  let intPart := l.takeWhile Char.isDigit
  let rest := l.dropWhile Char.isDigit
  let frac :=
    match rest with
    | '.' :: r => r.takeWhile Char.isDigit
    | _ => []
  if intPart.isEmpty && frac.isEmpty then none
  else
    let ip : ℕ := intPart.foldl (fun acc c => acc * 10 + (c.toNat - '0'.toNat)) 0
    let fp : ℕ := frac.foldl (fun acc c => acc * 10 + (c.toNat - '0'.toNat)) 0
    some ((sign : ℚ) * ((ip : ℚ) + (fp : ℚ) / ((10 : ℚ) ^ frac.length)))

/-- `parseFloat(v)`: coerce to string, parse a leading decimal number
(exponents are not exercised by the modelled inputs), `NaN` otherwise. -/
def jsParseFloat : JSValue → JSValue
  | .num q => .num q
  | .bigint i => .num (i : ℚ)
  | .str s =>
    let l := s.toList.dropWhile (fun c => c = ' ')
    let r :=
      match l with
      | '-' :: rest => parseFloatChars (-1) rest
      | '+' :: rest => parseFloatChars 1 rest
      | rest => parseFloatChars 1 rest
    match r with
    | some q => .num q
    | none => .nan
  | _ => .nan

/-- `v as Schema.Type`: the payload of a deserialized type-algebra value. -/
def toTy? : JSValue → Option Ty
  | .tyv t => some t
  | _ => none

/-- `v as Schema.Type[]` (non-`Type` entries would crash the host when
their getters are dereferenced; the modelled inputs never contain any). -/
def asTyList : JSValue → List Ty
  | .arr xs => xs.filterMap toTy?
  | _ => []

/-- `Object.entries(v)` for the table-building deserializers. -/
def jsEntries : JSValue → List (String × JSValue)
  | .obj fs => fs
  | _ => []

/-- Field set handed to `new Schema.TObject(base, fields)`: a `Type`
argument means `fields = null` (accept any object); a host object keeps its
`Type`-valued entries (a non-`Type` entry would crash the host when the
getter snapshot runs); anything else (`undefined`, primitives) yields the
empty field set via `Object.assign`. -/
def tobjFieldsOf : JSValue → Option (List (String × Ty))
  | .tyv _ => none
  | .obj fs => some (fs.filterMap (fun e => (toTy? e.2).map (fun t => (e.1, t))))
  | _ => some []

/-! ## The schema bootstrap (`schemaValidators`, `createSchemaOfSchema`) -/

/-- `schemaValidators(baseSchema)` (`schema.ts` 1015-1174), as a table of
codes (only the `"*"` closure reads `baseSchema`). -/
def schemaValidatorsTable (base : SchemaRepr) : List (String × Option VCode) :=
  [(":array", some .metaArrayV), (":object", some .metaObjectV),
   (":document", some .metaDocV), ("schema", some .metaSchemaV),
   ("maybe", some .metaMaybeV), ("oneOf", some .metaOneOfV),
   ("arrayOf", some .metaArrayOfV), ("class", some .metaClassV),
   ("proto", some .metaProtoV), ("object", some .metaObjDeclV),
   ("*", some (.metaStarV base))]

/-- `createSchemaOfSchema(partialSchema)` (`schema.ts` 1178-1354):
`baseSchema` is a fresh copy of the supplied partial schema; the meta
schema starts with empty `knownTypes`, carries the `":document"`
preprocessor, dummies for the base classes/prototypes (same key sets),
base validators masked to `undefined` for every non-reserved key and then
overlaid with `schemaValidators`, and a deserializer per base deserializer
key overlaid with the bootstrap deserializers. -/
def createSchemaOfSchemaR (base : SchemaRepr) : SchemaRepr :=
  .mk base.classes base.prototypes
    (assignTable
      (assignTable base.validators
        ((base.validators.map (fun e => e.1)).filter
            (fun k => !strStartsWith k ":") |>.map (fun k => (k, none))))
      (schemaValidatorsTable base))
    (assignTable
      ((base.deserializers.map (fun e => e.1)).map
        (fun k => (k, some (DCode.metaKeyD base k))))
      [("schema", some (.schemaD base)), (":undefined", some (.undefTermD base)),
       ("object", some (.objectDeclD base)), ("proto", some (.protoDeclD base)),
       ("class", some (.classDeclD base)), ("maybe", some (.maybeDeclD base)),
       ("oneOf", some (.oneOfDeclD base)), ("arrayOf", some (.arrayOfDeclD base)),
       ("*", some (.starMetaD base))])
    [(":document", some .docPre)]
    []

/-- The `":document"` preprocessor of the bootstrap (`schema.ts`
1187-1197): record every key of the root's `rawValue` (when it is a
non-array, non-null object) into `meta.knownTypes`.  It mutates the schema
it is handed; the model returns the updated schema. -/
def docPreRun (s : SchemaRepr) (n : Node) : SchemaRepr :=
  if jsTypeof n.rawValue = "object" && !isJsNull n.rawValue && !isJsArray n.rawValue then
    .mk s.classes s.prototypes s.validators s.deserializers s.preprocessors
      ((jsKeys n.rawValue).foldl setAdd s.knownTypes)
  else s

/-- Dispatch a preprocessor table entry. -/
def runPCode : PCode → SchemaRepr → Node → SchemaRepr
  | .docPre, s, n => docPreRun s n

/-- `if (this.schema.preprocessors[this.typeName])
this.schema.preprocessors[this.typeName](this)`: run the node's own
registered preprocessor, if any. -/
def preprocessOwn (t : String) (n : Node) (s : SchemaRepr) : SchemaRepr :=
  match tableVal s.preprocessors t with
  | some p => runPCode p s n
  | none => s

mutual

/-- `preprocess()` (`ast.ts`): `PrimitiveNode` and `TypedValueNode` run
their own registered preprocessor (`TypedValueNode` before recursing into
its child); `SimpleNode`s recurse into the child only, `CompoundNode`s into
the children only.  Preprocessors may mutate the schema (`knownTypes`), so
the traversal threads it. -/
def preprocessNode : Node → SchemaRepr → SchemaRepr
  | .prim t raw text, s => preprocessOwn t (.prim t raw text) s
  | .typed t text (some c), s =>
    preprocessNode c (preprocessOwn t (.typed t text (some c)) s)
  | .typed t text none, s => preprocessOwn t (.typed t text none) s
  | .protoNode _ (some c), s => preprocessNode c s
  | .protoNode _ none, s => s
  | .pairNode _ (some c), s => preprocessNode c s
  | .pairNode _ none, s => s
  | .ctorNode _ cs, s => preprocessList cs s
  | .arrNode cs, s => preprocessList cs s
  | .objNode cs, s => preprocessList cs s

def preprocessList : List Node → SchemaRepr → SchemaRepr
  | [], s => s
  | c :: rest, s => preprocessList rest (preprocessNode c s)

end

/-! ## The interpreters

`evalV`/`evalD` interpret validator/deserializer codes, `evalTyV`/`evalTyD`
the getters of the type-algebra variants, `nodeValue` the per-kind
`getValue` methods, `validateNode` the per-kind `validate` methods
(`validateSelfR` is the shared `ASTNode.validate`).  Fuel decreases on
every call; names registered in a schema may refer to themselves, so
lookup-driven recursion is not structural.  All concrete computations in
this file are settled at fuel well below the amounts supplied. -/

/-- Fuel-exhaustion marker (never reached at the fuel used below). -/
def fuelErr : VErr := .mk .fuelOut false

mutual

def evalV : Nat → VCode → SchemaRepr → List Node → Node → Option VErr
  | 0, _, _, _, _ => some fuelErr
  | fuel + 1, code, s, ctx, n =>
    match code with
    | .ofTy t => evalTyV fuel t s ctx n
    | .prim types chain =>
      -- createPrimitiveValidator (schema.ts 111-126)
      if types.contains (jsTypeof n.rawValue) then
        match chain with
        | some c => evalV fuel c s ctx n
        | none => none
      else
        some (.mk (.text ("expected " ++ jsonStringify (.str (String.intercalate "|" types))
          ++ ", found " ++ jsonStringify (.str (jsTypeof n.rawValue)))) false)
    | .intCheck types chain =>
      -- the chain closure of createIntValidator (schema.ts 186-197)
      if jsTypeof n.rawValue = "number" then
        let nonIntegral :=
          match n.rawValue with
          | .num q => q.den != 1
          | _ => true -- NaN % 1 is NaN, which !== 0
        if nonIntegral then
          some (.mk (.text ("non-integer value found for type "
            ++ jsonStringify (.str types))) false)
        else
          match chain with
          | some c => evalV fuel c s ctx n
          | none => none
      else
        match chain with
        | some c => evalV fuel c s ctx n
        | none => none
    | .uintCheck types chain =>
      -- the chain closure of createUintValidator (schema.ts 226-237)
      if jsTypeof n.rawValue = "number" then
        let negative :=
          match n.rawValue with
          | .num q => decide (q < 0)
          | _ => false -- NaN < 0 is false
        if negative then
          some (.mk (.text ("expected positive value for type "
            ++ jsonStringify (.str types))) false)
        else
          match chain with
          | some c => evalV fuel c s ctx n
          | none => none
      else
        match chain with
        | some c => evalV fuel c s ctx n
        | none => none
    | .boundCheck types lower upper chain =>
      -- the chain closure of createBoundNumberValidator (schema.ts 207-218)
      if jsTypeof n.rawValue = "number" then
        let outside :=
          match n.rawValue with
          | .num q => decide (q < lower) || decide (q > upper)
          | _ => false -- NaN comparisons are false
        if outside then
          some (.mk (.text ("expected number in range " ++ numToString lower
            ++ "-" ++ numToString upper ++ " for type "
            ++ jsonStringify (.str types))) false)
        else
          match chain with
          | some c => evalV fuel c s ctx n
          | none => none
      else
        match chain with
        | some c => evalV fuel c s ctx n
        | none => none
    | .bigintStrCheck =>
      -- the chain of the built-in bigint validator (schema.ts 404-410)
      match n.rawValue with
      | .str str =>
        if !bigintStrOk str then some (.mk (.text "invalid bigint") false) else none
      | _ => none
    | .objectCheck =>
      -- the chain of the built-in object validator (schema.ts 414-423)
      if isJsNull n.rawValue then none
      else if isJsArray n.rawValue then
        some (.mk (.text "non-object value found for built-in type \"object\"") false)
      else none
    | .arrayBuiltin =>
      -- the built-in array validator (schema.ts 424-428)
      if !isJsArray n.rawValue then
        some (.mk (.text "invalid built-in array value") false)
      else none
    | .arrValid type elem =>
      -- createArrayValidator (schema.ts 128-142)
      if n.typeName = ":array" then
        match elem with
        | some ev => firstErrV fuel ev s (n :: ctx) n.childrenView
        | none => none
      else
        some (.mk (.text ("expected an array of type "
          ++ jsonStringify (.str type))) false)
    | .sigValid signatures vals =>
      -- createSignatureValidator (schema.ts 144-179)
      match n.childrenView[0]? with
      | some arr =>
        if arr.typeName ≠ ":array" then
          some (.mk (.text "invalid argument") false)
        else
          let errors := sigErrsV fuel vals s (arr :: n :: ctx) arr.childrenView 0
          if errors.isEmpty then none
          else
            some (.mk (.composedV "invalid arguments, validation failed with errors"
              (errors.map (fun e =>
                (toString e.1 ++ " with signature `"
                  ++ ((signatures[e.1]?).getD "undefined") ++ "`", e.2)))) false)
      | none => some (.mk (.text "invalid argument") false)
    | .metaArrayV =>
      -- schemaValidators ":array" (schema.ts 1019-1024)
      match ctx.head? with
      | some p =>
        if ["oneOf", "arrayOf", "class", "schema"].contains p.typeName then none
        else some (.mk (.text "unexpected array literal") false)
      | none => some (.mk (.text "unexpected array literal") false)
    | .metaObjectV =>
      -- schemaValidators ":object" (schema.ts 1025-1037)
      match ctx.head? with
      | some p =>
        if ["class", "proto", "schema", "object", "array"].contains p.typeName then none
        else if p.typeName = ":document" then
          some (.mk (.text "invalid input, document root must be of type `schema`") false)
        else some (.mk (.text "unexpected object literal") false)
      | none => some (.mk (.text "unexpected object literal") false)
    | .metaDocV =>
      -- schemaValidators ":document" (schema.ts 1038-1045)
      match n.childrenView with
      | [c] =>
        if c.typeName = "schema" then none
        else some (.mk (.text "invalid input, document root must be of type `schema`") false)
      | _ => some (.mk (.text "invalid input, document root must be of type `schema`") false)
    | .metaSchemaV =>
      -- schemaValidators "schema" (schema.ts 1046-1056)
      if (ctx.head?).map Node.typeName ≠ some ":document" then
        some (.mk (.text "nested schemas are not supported") false)
      else
        match n.childrenView[0]? with
        | some c =>
          if c.typeName = ":object" then none
          else some (.mk (.text "invalid schema: expected an object") false)
        | none => some (.mk (.jsTypeError "children[0] is undefined") false)
    | .metaMaybeV =>
      -- schemaValidators "maybe" (schema.ts 1057-1062)
      match n.childrenView[0]? with
      | some c =>
        if c.typeName ≠ ":undefined" && n.typeName ≠ ":null" then none
        else some (.mk (.text "missing type argument") false)
      | none => some (.mk (.jsTypeError "children[0] is undefined") false)
    | .metaOneOfV =>
      -- schemaValidators "oneOf" (schema.ts 1063-1067)
      match n.childrenView[0]? with
      | some c =>
        if c.typeName = ":array" then none
        else some (.mk (.text "oneOf only accepts an array") false)
      | none => some (.mk (.jsTypeError "children[0] is undefined") false)
    | .metaArrayOfV =>
      -- schemaValidators "arrayOf" (schema.ts 1068-1075)
      match n.childrenView[0]? with
      | some c =>
        if c.typeName ≠ ":object" then none
        else some (.mk (.text "arrayOf accepts either one type or an array of types") false)
      | none => some (.mk (.jsTypeError "children[0] is undefined") false)
    | .metaClassV =>
      -- schemaValidators "class" (schema.ts 1076-1111)
      metaPlacementV fuel s ctx n true
    | .metaProtoV =>
      -- schemaValidators "proto" (schema.ts 1112-1147)
      metaPlacementV fuel s ctx n false
    | .metaObjDeclV =>
      -- schemaValidators "object" (schema.ts 1148-1156)
      match n.childrenView[0]? with
      | some c =>
        if c.typeName = ":object" || c.typeName = ":undefined" then none
        else some (.mk (.text "object only accepts an optional key-value mapping") false)
      | none => some (.mk (.jsTypeError "children[0] is undefined") false)
    | .metaStarV base =>
      -- schemaValidators "*" (schema.ts 1157-1172)
      if !strStartsWith n.typeName ":" &&
          !(hasKey base.deserializers n.typeName ||
            base.classes.contains n.typeName ||
            base.prototypes.contains n.typeName) &&
          !s.knownTypes.contains n.typeName then
        some (.mk (.text ("unknown type " ++ n.typeName)) false)
      else none

/-- `schemaValidators` `"class"`/`"proto"` placement rule (they differ only
in messages and in the accepted child kind). -/
def metaPlacementV : Nat → SchemaRepr → List Node → Node → Bool → Option VErr
  | 0, _, _, _, _ => some fuelErr
  | _ + 1, _, ctx, n, isClass =>
    let ancestors := ctx.reverse
    let named := ancestors.filter (fun a => !strStartsWith a.typeName ":")
    if named.length > 2 ∨
        (named.length = 2 ∧ (named[1]?).map Node.typeName ≠ some "oneOf") then
      some (.mk (.text (if isClass then
        "classes may only be defined at the schema level or as part of a schema-level `oneOf` clause"
        else
        "prototypes may only be defined at the schema level or as part of a schema-level `oneOf` clause")) false)
    else
      let invalidMember :=
        if named.length = 2 then
          match (named[1]?).bind (fun a => a.childrenView[0]?) with
          | some arr =>
            (arr.childrenView.filter (fun c =>
              !(strContains c.typeName "class" ||
                strContains c.typeName "proto" ||
                strContains c.typeName "object")))[0]?
          | none => none
        else none
      match invalidMember with
      | some bad =>
        some (.mk (.text ("unexpected " ++ jsonStringify (.str bad.typeName)
          ++ " in `oneOf [...]`, expected: class|proto|object")) false)
      | none =>
        if ((getNamespace ctx n).map (fun ns => strStartsWith ns ":")).getD false then
          some (.mk (.text "invalid class name") false)
        else
          match n.childrenView[0]? with
          | some c =>
            if isClass then
              if c.typeName = ":array" || c.typeName = ":undefined" then none
              else some (.mk (.text "class only accepts an optional array of arguments") false)
            else
              if c.typeName = ":object" || c.typeName = ":undefined" then none
              else some (.mk (.text "proto only accepts an optional key-value mapping") false)
          | none => some (.mk (.jsTypeError "children[0] is undefined") false)

/-- `acc.children.map((c) => elementValidator(c)).find((e) => !!e)`. -/
def firstErrV : Nat → VCode → SchemaRepr → List Node → List Node → Option VErr
  | 0, _, _, _, _ => some fuelErr
  | fuel + 1, code, s, ctx, ns =>
    match ns with
    | [] => none
    | c :: rest =>
      match evalV fuel code s ctx c with
      | some e => some e
      | none => firstErrV fuel code s ctx rest

/-- The per-index error collection of `createSignatureValidator`
(`arr.children.forEach((c, i) => validators[i]?.(c) …)`). -/
def sigErrsV : Nat → List VCode → SchemaRepr → List Node → List Node → Nat →
    List (Nat × VErr)
  | 0, _, _, _, _, _ => [(0, fuelErr)]
  | fuel + 1, vals, s, ctx, ns, i =>
    match ns with
    | [] => []
    | c :: rest =>
      match vals[i]? with
      | some code =>
        match evalV fuel code s ctx c with
        | some e => (i, e.simplify) :: sigErrsV fuel vals s ctx rest (i + 1)
        | none => sigErrsV fuel vals s ctx rest (i + 1)
      | none => sigErrsV fuel vals s ctx rest (i + 1)

def evalTyV : Nat → Ty → SchemaRepr → List Node → Node → Option VErr
  | 0, _, _, _, _ => some fuelErr
  | fuel + 1, t, s, ctx, n =>
    match t with
    | .literal _ type value =>
      -- Schema.Literal.validator (schema.ts 469-478)
      if [jsTypeof value].contains (jsTypeof n.rawValue) then
        if jsStrictEq n.rawValue value then none
        else
          some (.mk (.text ("value mismatch, expected `"
            ++ Ty.signature (.literal defaultSchemaR type value) ++ "`")) false)
      else
        some (.mk (.text ("expected " ++ jsonStringify (.str (jsTypeof value))
          ++ ", found " ++ jsonStringify (.str (jsTypeof n.rawValue)))) false)
    | .maybe inner =>
      -- Schema.Maybe.validator (schema.ts 513-531)
      if isNullish n.rawValue then none
      else if !hasKey s.validators n.typeName &&
          !hasKey s.deserializers n.typeName &&
          !strStartsWith n.typeName ":" then
        some (.mk (.unknownType n.typeName) false)
      else
        match inner with
        | some it => evalTyV fuel it s ctx n
        | none => some (.mk (.jsTypeError "inner is null") false)
    | .arrayOf inner =>
      -- Schema.ArrayOf.validator (schema.ts 554-575)
      if !isJsArray n.rawValue then
        some (.mk (.text ("expected array of type `"
          ++ Ty.signature inner ++ "[]`")) false)
      else
        match n.childrenView[0]? with
        | some arr =>
          if arr.childrenView.isEmpty then none
          else firstErrTyV fuel inner s (arr :: n :: ctx) arr.childrenView
        | none => none
    | .arrayFixed types label =>
      -- Schema.ArrayFixed.validator (schema.ts 845-897), via the combinator
      arrayFixedValidatorF
        (types.map (fun ti =>
          (Ty.signature ti, Ty.isMaybe ti, fun c m => evalTyV fuel ti s c m)))
        (Ty.signature (.arrayFixed types label)) label ctx n
    | .tobject base fields =>
      match fields with
      | none =>
        -- Schema.TObject.validator, null fields (schema.ts 628-635)
        let obj :=
          if n.typeName = ":object" then some n else n.childrenView[0]?
        match obj with
        | some o =>
          if o.typeName ≠ ":object" then
            some (.mk (.text "expected object") false)
          else none
        | none => some (.mk (.text "expected object") false)
      | some fs =>
        -- Schema.TObject.validator (schema.ts 636-722), via the combinator
        tobjValidatorF
          (base.validators.map (fun e =>
            (e.1, e.2.map (fun code => fun c m => evalV fuel code s c m))))
          (Ty.signature (.tobject base fields))
          (fs.map (fun f =>
            (f.1, Ty.isMaybe f.2, fun c m => evalTyV fuel f.2 s c m)))
          ctx n
    | .oneOf types ns =>
      -- Schema.OneOf.validator (schema.ts 781-822), via the combinator
      oneOfValidatorF
        (types.map (fun ti =>
          (Ty.signature ti, fun c m => evalTyV fuel ti s c m)))
        (Ty.signature (.oneOf types ns)) ctx n
    | .terminal name =>
      -- Schema.Terminal.validator (schema.ts 914-923)
      match tableVal s.validators name with
      | none => none
      | some code =>
        if n.typeName ≠ name && n.kind ≠ NodeKind.typed then
          evalV fuel code s ctx n
        else
          match n.childrenView[0]? with
          | some c => evalV fuel code s (n :: ctx) c
          | none => some (.mk (.jsTypeError "validator applied to undefined") false)
    | .alias base fromKey toKey =>
      -- Schema.Alias.validator (schema.ts 952-978)
      match fromKey.bind (fun f => (tableVal base.validators f).map (fun c => c)) with
      | some code => evalV fuel code s ctx n
      | none =>
        if !(s.classes.contains toKey || hasKey s.deserializers toKey ||
            s.prototypes.contains toKey || hasKey s.validators toKey) then
          some (.mk (.text ("missing aliased type " ++ jsonStringify (.str toKey))) false)
        else
          match tableValStar s.validators toKey with
          | none => none
          | some code =>
            if n.kind = NodeKind.typed || some n.typeName = fromKey then
              match n.childrenView[0]? with
              | some c => evalV fuel code s (n :: ctx) c
              | none => some (.mk (.jsTypeError "validator applied to undefined") false)
            else evalV fuel code s ctx n
    | .cls base className args =>
      -- Schema.Class.validator (schema.ts 995-1011)
      if !s.classes.contains className then
        some (.mk (.text ("missing class " ++ jsonStringify (.str className))) false)
      else
        let e :=
          match n.childrenView[0]? with
          | some c =>
            match args with
            | some a => evalTyV fuel a s (n :: ctx) c
            | none => none
          | none => none
        match e with
        | some e => some e
        | none =>
          match tableVal base.validators className with
          | some code => evalV fuel code s ctx n
          | none => none

/-- First error of `ArrayOf`'s element loop (`for (const v of arr.children)
{ const e = innerValidator(v); if (e) return e; }`). -/
def firstErrTyV : Nat → Ty → SchemaRepr → List Node → List Node → Option VErr
  | 0, _, _, _, _ => some fuelErr
  | fuel + 1, t, s, ctx, ns =>
    match ns with
    | [] => none
    | c :: rest =>
      match evalTyV fuel t s ctx c with
      | some e => some e
      | none => firstErrTyV fuel t s ctx rest

def evalD : Nat → DCode → SchemaRepr → List Node → Node → Except VErr JSValue
  | 0, _, _, _, _ => .error fuelErr
  | fuel + 1, code, s, ctx, n =>
    match code with
    | .ofTyD t => evalTyD fuel t s ctx n
    | .bigintD =>
      -- the built-in bigint deserializer (schema.ts 323-350)
      let rv := n.rawValue
      if ["bigint", "string", "number"].contains (jsTypeof rv) then
        if isJsNull rv then .ok .null
        else
          match rv with
          | .bigint i => .ok (.bigint i)
          | _ =>
            -- string or number: BigInt(acc.text)
            match parseBigInt? n.text with
            | some i => .ok (.bigint i)
            | none =>
              .error (.mk (.text ("Cannot convert " ++ n.text ++ " to a BigInt")) false)
      else
        .error (.mk (.text ("invalid bigint value: " ++ jsonStringify rv)) false)
    | .undefD => .ok .undef
    | .intD =>
      -- (v) => v.rawValue !== null ? parseInt(v.rawValue) : v.rawValue
      if isJsNull n.rawValue then .ok n.rawValue
      else .ok (jsParseInt n.rawValue)
    | .floatD =>
      -- (v) => v.rawValue !== null ? parseFloat(v.rawValue) : v
      if isJsNull n.rawValue then .ok .accessorRef
      else .ok (jsParseFloat n.rawValue)
    | .numberD =>
      if isJsNull n.rawValue then .ok .accessorRef
      else .ok (jsParseFloat n.rawValue)
    | .metaKeyD base k =>
      -- the per-base-key bootstrap deserializer (schema.ts 1223-1237)
      match ctx.head? with
      | some p =>
        if p.kind = NodeKind.pair ∧ (ctx[2]?).map Node.typeName = some "schema" then
          .ok (.tyv (.alias base p.keyStr n.typeName))
        else if s.knownTypes.contains n.typeName then
          .ok (.tyv (.alias base none n.typeName))
        else .ok (.tyv (.terminal k))
      | none =>
        if s.knownTypes.contains n.typeName then
          .ok (.tyv (.alias base none n.typeName))
        else .ok (.tyv (.terminal k))
    | .schemaD base =>
      -- the "schema" deserializer (schema.ts 1241-1300)
      match n.childrenView[0]? with
      | none => .error (.mk (.jsTypeError "children[0] is undefined") false)
      | some c => do
        let value ← nodeValue fuel s (n :: ctx) c
        let fs := jsEntries value
        .ok (.schemav (.mk
          base.classes
          base.prototypes
          (assignTable
            (fs.map (fun e => (e.1,
              ((tableVal base.validators e.1).orElse (fun _ =>
                tableVal base.validators "*")).orElse (fun _ =>
                  (toTy? e.2).map VCode.ofTy))))
            base.validators)
          (assignTable base.deserializers
            (fs.map (fun e => (e.1,
              ((tableVal base.deserializers e.1).orElse (fun _ =>
                tableVal base.deserializers "*")).orElse (fun _ =>
                  (toTy? e.2).map DCode.ofTyD)))))
          (assignTable base.preprocessors
            (fs.map (fun e => (e.1, tableVal base.preprocessors e.1))))
          (fs.map (fun e => e.1))))
    | .undefTermD _ =>
      -- ":undefined" => new Schema.Terminal(baseSchema, "undefined")
      .ok (.tyv (.terminal "undefined"))
    | .objectDeclD base =>
      -- "object" => new Schema.TObject(base, acc.children[0].value)
      match n.childrenView[0]? with
      | none => .error (.mk (.jsTypeError "children[0] is undefined") false)
      | some c => do
        let v ← nodeValue fuel s (n :: ctx) c
        .ok (.tyv (.tobject base (tobjFieldsOf v)))
    | .protoDeclD base =>
      -- "proto" => new Schema.TObject(base, acc.children[0].value)
      match n.childrenView[0]? with
      | none => .error (.mk (.jsTypeError "children[0] is undefined") false)
      | some c => do
        let v ← nodeValue fuel s (n :: ctx) c
        .ok (.tyv (.tobject base (tobjFieldsOf v)))
    | .classDeclD base =>
      -- "class" (schema.ts 1306-1320)
      let className := (getNamespace ctx n).getD "undefined"
      match n.childrenView[0]? with
      | none => .error (.mk (.jsTypeError "children[0] is undefined") false)
      | some args =>
        if args.typeName ≠ ":undefined" then do
          let v ← nodeValue fuel s (n :: ctx) args
          .ok (.tyv (.cls base className (some (.arrayFixed (asTyList v) "arguments"))))
        else .ok (.tyv (.cls base className none))
    | .maybeDeclD _ =>
      -- "maybe" (schema.ts 1321-1322)
      match n.childrenView[0]? with
      | none => .error (.mk (.jsTypeError "children[0] is undefined") false)
      | some c => do
        let v ← nodeValue fuel s (n :: ctx) c
        .ok (.tyv (.maybe (toTy? v)))
    | .oneOfDeclD _ =>
      -- "oneOf" (schema.ts 1323-1328)
      match n.childrenView[0]? with
      | none => .error (.mk (.jsTypeError "children[0] is undefined") false)
      | some c => do
        let v ← nodeValue fuel s (n :: ctx) c
        .ok (.tyv (.oneOf (asTyList v) (getNamespace ctx n)))
    | .arrayOfDeclD _ =>
      -- "arrayOf" (schema.ts 1329-1339)
      match n.childrenView[0]? with
      | none => .error (.mk (.jsTypeError "children[0] is undefined") false)
      | some c => do
        let v ← nodeValue fuel s (n :: ctx) c
        if isJsArray v then .ok (.tyv (.arrayFixed (asTyList v) "array"))
        else
          match toTy? v with
          | some t => .ok (.tyv (.arrayOf t))
          | none => .error (.mk (.jsTypeError "not a Type") false)
    | .starMetaD base =>
      -- the bootstrap "*" deserializer (schema.ts 1340-1350)
      if n.kind = NodeKind.primitive then
        .ok (.tyv (.literal s n.typeName n.rawValue))
      else
        match n.childrenView[0]? with
        | none => .error (.mk (.jsTypeError "children[0] is undefined") false)
        | some c => do
          -- extraArgs = acc.children[0].value is evaluated and then unused
          let _ ← nodeValue fuel s (n :: ctx) c
          .ok (.tyv (.alias base (ctx.head?.bind Node.keyStr) n.typeName))

def evalTyD : Nat → Ty → SchemaRepr → List Node → Node → Except VErr JSValue
  | 0, _, _, _, _ => .error fuelErr
  | fuel + 1, t, s, ctx, n =>
    match t with
    | .literal base type _ =>
      -- Schema.Literal.deserializer (schema.ts 466-468)
      match tableVal base.deserializers type with
      | some d => evalD fuel d s ctx n
      | none => nodeValue fuel s ctx n
    | .maybe _ =>
      -- Schema.Maybe.deserializer (schema.ts 491-511)
      if !hasKey s.validators n.typeName &&
          !hasKey s.deserializers n.typeName &&
          !strStartsWith n.typeName ":" then
        .error (.mk (.unknownType n.typeName) false)
      else if isNullish n.rawValue then .ok n.rawValue
      else if n.kind = NodeKind.typed then
        match n.childrenView[0]? with
        | some c => nodeValue fuel s (n :: ctx) c
        | none => .error (.mk (.jsTypeError "children[0] is undefined") false)
      else nodeValue fuel s ctx n
    | .arrayOf inner =>
      -- Schema.ArrayOf.deserializer (schema.ts 548-553)
      if n.kind = NodeKind.array then
        mapTyD fuel inner s (n :: ctx) n.childrenView
      else
        match n.childrenView[0]? with
        | some arr => mapTyD fuel inner s (arr :: n :: ctx) arr.childrenView
        | none => .error (.mk (.jsTypeError "children[0] is undefined") false)
    | .arrayFixed types _ =>
      -- Schema.ArrayFixed.deserializer (schema.ts 835-844)
      if n.typeName = ":array" then
        afMapD fuel types s (n :: ctx) n.childrenView 0
      else
        match n.childrenView[0]? with
        | some arr => afMapD fuel types s (arr :: n :: ctx) arr.childrenView 0
        | none => .error (.mk (.jsTypeError "children[0] is undefined") false)
    | .tobject _ fields =>
      -- Schema.TObject.deserializer (schema.ts 601-625)
      match fields with
      | none => nodeValue fuel s ctx n
      | some fs =>
        let obj :=
          if n.typeName = ":object" then some (n, ctx)
          else (n.childrenView[0]?).map (fun c => (c, n :: ctx))
        match obj with
        | none => .error (.mk (.jsTypeError "children[0] is undefined") false)
        | some (o, oCtx) => do
          let entries ← tobjMapD fuel fs s (o :: oCtx) o.childrenView
          .ok (.obj (entries.foldl (fun acc e => upsert acc e.1 e.2) []))
    | .oneOf types ns =>
      -- Schema.OneOf.deserializer (schema.ts 743-780), via the combinator
      oneOfDeserializerF
        (types.map (fun ti =>
          (fun c m => evalTyV fuel ti s c m, fun c m => evalTyD fuel ti s c m)))
        (Ty.signature (.oneOf types ns)) ctx n
    | .terminal _ =>
      -- Schema.Terminal.deserializer (schema.ts 910-913)
      if n.kind = NodeKind.primitive then nodeValue fuel s ctx n
      else
        match n.childrenView[0]? with
        | some c => nodeValue fuel s (n :: ctx) c
        | none => .error (.mk (.jsTypeError "children[0] is undefined") false)
    | .alias base fromKey toKey =>
      -- Schema.Alias.deserializer (schema.ts 938-951)
      match fromKey.bind (fun f => tableVal base.deserializers f) with
      | some d => evalD fuel d s ctx n
      | none =>
        match tableValStar s.deserializers toKey with
        | some d =>
          if some n.typeName = fromKey then
            match n.childrenView[0]? with
            | some c => evalD fuel d s (n :: ctx) c
            | none => .error (.mk (.jsTypeError "children[0] is undefined") false)
          else evalD fuel d s ctx n
        | none =>
          if n.kind = NodeKind.typed then
            match n.childrenView[0]? with
            | some c => nodeValue fuel s (n :: ctx) c
            | none => .error (.mk (.jsTypeError "children[0] is undefined") false)
          else nodeValue fuel s ctx n
    | .cls _ _ _ =>
      -- Schema.Class.deserializer (schema.ts 992-994)
      match n.childrenView[0]? with
      | some c => nodeValue fuel s (n :: ctx) c
      | none => .error (.mk (.jsTypeError "children[0] is undefined") false)

/-- `arr.children.map((v) => inner.deserializer(v))`. -/
def mapTyD : Nat → Ty → SchemaRepr → List Node → List Node →
    Except VErr JSValue
  | 0, _, _, _, _ => .error fuelErr
  | fuel + 1, t, s, ctx, ns =>
    match ns with
    | [] => .ok (.arr [])
    | c :: rest => do
      let v ← evalTyD fuel t s ctx c
      let r ← mapTyD fuel t s ctx rest
      match r with
      | .arr vs => .ok (.arr (v :: vs))
      | _ => .ok (.arr [v])

/-- `arr.children.map((v, i) => types[i] instanceof Terminal ? v.value :
types[i].deserializer(v))`; a child beyond `types.length` dereferences
`undefined` and crashes the host. -/
def afMapD : Nat → List Ty → SchemaRepr → List Node → List Node → Nat →
    Except VErr JSValue
  | 0, _, _, _, _, _ => .error fuelErr
  | fuel + 1, types, s, ctx, ns, i =>
    match ns with
    | [] => .ok (.arr [])
    | c :: rest => do
      let v ←
        match types[i]? with
        | some (.terminal name) =>
          -- the Terminal special case uses v.value directly
          let _ := name
          nodeValue fuel s ctx c
        | some t => evalTyD fuel t s ctx c
        | none => .error (.mk (.jsTypeError "types[i] is undefined") false)
      let r ← afMapD fuel types s ctx rest (i + 1)
      match r with
      | .arr vs => .ok (.arr (v :: vs))
      | _ => .ok (.arr [v])

/-- The entry map of `TObject.deserializer`: for each pair child `kv`,
`[kv.key, (schema.deserializers[kv.key] ?? fields[kv.key].deserializer)
(kv.children[0])]`; an input key with no declared deserializer
dereferences `undefined` and crashes the host. -/
def tobjMapD : Nat → List (String × Ty) → SchemaRepr → List Node →
    List Node → Except VErr (List (String × JSValue))
  | 0, _, _, _, _ => .error fuelErr
  | fuel + 1, fs, s, ctx, ns =>
    match ns with
    | [] => .ok []
    | kv :: rest => do
      let k := (kv.keyStr).getD "undefined"
      let v ←
        match kv.childrenView[0]? with
        | none => .error (.mk (.jsTypeError "children[0] is undefined") false)
        | some c =>
          match tableVal s.deserializers k with
          | some d => evalD fuel d s (kv :: ctx) c
          | none =>
            match (fs.find? (fun f => f.1 = k)).map Prod.snd with
            | some t => evalTyD fuel t s (kv :: ctx) c
            | none => .error (.mk (.jsTypeError "deserializer is undefined") false)
      let r ← tobjMapD fuel fs s ctx rest
      .ok ((k, v) :: r)

def nodeValue : Nat → SchemaRepr → List Node → Node → Except VErr JSValue
  | 0, _, _, _ => .error fuelErr
  | fuel + 1, s, ctx, n =>
    match n with
    | .prim t raw _ =>
      -- PrimitiveNode.getValue (ast.ts 178-185):
      -- (deserializers[typeName] ?? deserializers["*"])?.(this) ?? rawValue
      match tableValStar s.deserializers t with
      | some d => do
        let v ← evalD fuel d s ctx n
        .ok (if isNullish v then raw else v)
      | none => .ok raw
    | .typed t _ child =>
      -- TypedValueNode.getValue (ast.ts 264-280)
      if hasKey s.deserializers t || hasKey s.validators t then
        match tableVal s.deserializers t with
        | some d => evalD fuel d s ctx n
        | none =>
          match child with
          | some c => nodeValue fuel s (n :: ctx) c
          | none => .ok .undef
      else if hasKey s.deserializers "*" then
        match tableVal s.deserializers "*" with
        | some d => evalD fuel d s ctx n
        | none => .error (.mk (.jsTypeError "deserializers[\"*\"] is undefined") false)
      else if strStartsWith t ":" then
        match child with
        | some c => nodeValue fuel s (n :: ctx) c
        | none => .ok .undef
      else .error (.mk (.unknownType t) false)
    | .protoNode t child =>
      -- ProtoConstructionNode.getValue (ast.ts 304-317)
      if s.prototypes.contains t then do
        let cv ←
          match child with
          | some c => nodeValue fuel s (n :: ctx) c
          | none => .ok .undef
        .ok (.protoInst t (jsEntries cv))
      else .error (.mk (.unknownPrototype t) false)
    | .ctorNode t cs =>
      -- CtorCallValueNode.getValue (ast.ts 341-352)
      if s.classes.contains t then
        match cs[0]? with
        | some args => do
          let vs ← valuesOf fuel s (args :: n :: ctx) args.childrenView
          .ok (.classInst t vs)
        | none => .error (.mk (.jsTypeError "args is undefined") false)
      else .error (.mk (.unknownClass t) false)
    | .arrNode cs => do
      -- ArrayNode.getValue (ast.ts 199-201)
      let vs ← valuesOf fuel s (n :: ctx) cs
      .ok (.arr vs)
    | .objNode cs => do
      -- ObjectNode.getValue (ast.ts 237-241)
      let fs ← objFoldValues fuel s (n :: ctx) cs []
      .ok (.obj fs)
    | .pairNode _ child =>
      -- PairNode.getValue (ast.ts 221-223)
      match child with
      | some c => nodeValue fuel s (n :: ctx) c
      | none => Except.ok JSValue.undef

/-- `children.map((c) => c.value)` with exception propagation. -/
def valuesOf : Nat → SchemaRepr → List Node → List Node →
    Except VErr (List JSValue)
  | 0, _, _, _ => .error fuelErr
  | fuel + 1, s, ctx, ns =>
    match ns with
    | [] => .ok []
    | c :: rest => do
      let v ← nodeValue fuel s ctx c
      let vs ← valuesOf fuel s ctx rest
      .ok (v :: vs)

/-- `children.reduce((p, n) => Object.assign(p, {[n.key]: n.value}), {})`. -/
def objFoldValues : Nat → SchemaRepr → List Node → List Node →
    List (String × JSValue) → Except VErr (List (String × JSValue))
  | 0, _, _, _, _ => .error fuelErr
  | fuel + 1, s, ctx, ns, acc =>
    match ns with
    | [] => .ok acc
    | c :: rest => do
      let v ← nodeValue fuel s ctx c
      objFoldValues fuel s ctx rest (upsert acc ((c.keyStr).getD "undefined") v)

/-- `ASTNode.validate` (ast.ts 96-116): the unknown-type guard, then
`(validators[typeName] ?? validators["*"])?.(this)`, throwing whatever
error the validator returns. -/
def validateSelfR : Nat → SchemaRepr → List Node → Node → Option VErr
  | 0, _, _, _ => some fuelErr
  | fuel + 1, s, ctx, n =>
    if !(strStartsWith n.typeName ":" ||
        hasKey s.validators "*" ||
        s.classes.contains n.typeName ||
        s.prototypes.contains n.typeName ||
        hasKey s.deserializers n.typeName ||
        hasKey s.validators n.typeName) then
      some (.mk (.unknownType n.typeName) false)
    else
      match tableValStar s.validators n.typeName with
      | some code => evalV fuel code s ctx n
      | none => none

/-- `validate()`: post-order — `SimpleNode`/`CompoundNode` validate the
child(ren) first, then `super.validate()`; `ProtoConstructionNode`/
`CtorCallValueNode` first check their prototype/class registration. -/
def validateNode : Nat → SchemaRepr → List Node → Node → Option VErr
  | 0, _, _, _ => some fuelErr
  | fuel + 1, s, ctx, n =>
    match n with
    | .prim _ _ _ => validateSelfR fuel s ctx n
    | .typed _ _ child =>
      match child with
      | some c =>
        match validateNode fuel s (n :: ctx) c with
        | some e => some e
        | none => validateSelfR fuel s ctx n
      | none => validateSelfR fuel s ctx n
    | .pairNode _ child =>
      match child with
      | some c =>
        match validateNode fuel s (n :: ctx) c with
        | some e => some e
        | none => validateSelfR fuel s ctx n
      | none => validateSelfR fuel s ctx n
    | .protoNode t child =>
      -- ProtoConstructionNode.validate (ast.ts 294-303)
      if !s.prototypes.contains t then
        some (.mk (.unknownPrototype t) false)
      else
        match child with
        | some c =>
          match validateNode fuel s (n :: ctx) c with
          | some e => some e
          | none => validateSelfR fuel s ctx n
        | none => validateSelfR fuel s ctx n
    | .ctorNode t cs =>
      -- CtorCallValueNode.validate (ast.ts 331-340)
      if !s.classes.contains t then
        some (.mk (.unknownClass t) false)
      else
        match validateList fuel s (n :: ctx) cs with
        | some e => some e
        | none => validateSelfR fuel s ctx n
    | .arrNode cs =>
      match validateList fuel s (n :: ctx) cs with
      | some e => some e
      | none => validateSelfR fuel s ctx n
    | .objNode cs =>
      match validateList fuel s (n :: ctx) cs with
      | some e => some e
      | none => validateSelfR fuel s ctx n

def validateList : Nat → SchemaRepr → List Node → List Node → Option VErr
  | 0, _, _, _ => some fuelErr
  | fuel + 1, s, ctx, ns =>
    match ns with
    | [] => none
    | c :: rest =>
      match validateNode fuel s ctx c with
      | some e => some e
      | none => validateList fuel s ctx rest

end

/-! ## The `parse`/`parseSchema` entry points (`index.ts`) -/

/-- `parse(document, schema)` from the handover of the built tree onward
(`index.ts` 17-65, `ast.ts` `exitRoot`): run `root.preprocess()` (which may
update `meta.knownTypes`), then `root.validate()` (a thrown error aborts the
parse), then return `root.value`.  `new Schema(schema)` copies the tables,
the identity on this immutable representation. -/
def runParse (fuel : Nat) (s : SchemaRepr) (root : Node) :
    Except VErr JSValue :=
  let s' := preprocessNode root s
  match validateNode fuel s' [] root with
  | some e => .error e
  | none => nodeValue fuel s' [] root

/-- `parseSchema(document, baseSchema)` (`index.ts` 9-15): `parse` with
`createSchemaOfSchema(baseSchema)` as the active schema. -/
def parseSchemaR (fuel : Nat) (base : SchemaRepr) (doc : Node) :
    Except VErr JSValue :=
  runParse fuel (createSchemaOfSchemaR base) doc

/-! ## The memoizing `value` getter (`ast.ts` 83-94), instrumented

`_value = emptyValue` is modelled by `cache = none`.  `valueRead` performs
one read of `.value`: a cache hit returns the stored result without running
anything; a miss runs `getValue` — whose outcome and deserializer-invocation
count are supplied — and stores the result only if no error is thrown (the
assignment `this._value = this.getValue()` never executes when `getValue`
throws).  The third component counts deserializer invocations performed by
the read. -/
def valueRead (getValue : Except VErr JSValue) (getCount : Nat)
    (cache : Option JSValue) : Except VErr JSValue × Option JSValue × Nat :=
  match cache with
  | some v => (.ok v, some v, 0)
  | none =>
    match getValue with
    | .ok v => (.ok v, some v, getCount)
    | .error e => (.error e, none, getCount)

/-- `PrimitiveNode.getValue` (`ast.ts` 178-185) instrumented with its
deserializer-invocation count: when `deserializers[typeName] ??
deserializers["*"]` finds a deserializer it is invoked exactly once — the
`?? this.rawValue` fallback applies when its *result* is nullish, not when
it throws — and when the lookup finds nothing, none is invoked and the raw
value is cached. -/
def primGetValueCt (fuel : Nat) (s : SchemaRepr) (ctx : List Node)
    (n : Node) : Except VErr JSValue × Nat :=
  match tableValStar s.deserializers n.typeName with
  | some d =>
    (match evalD fuel d s ctx n with
     | .ok v => .ok (if isNullish v then n.rawValue else v)
     | .error e => .error e, 1)
  | none => (.ok n.rawValue, 0)

mutual

/-- `rawValue`, instrumented with a deserializer-invocation count in the
same discipline as `primGetValueCt`: the transcription of the `rawValue`
getters contains no deserializer call site, so every count is zero — which
is the content of the `rawValue`-purity invariant. -/
def rawValueCt : Node → JSValue × Nat
  | .prim _ v _ => (v, 0)
  | .typed _ _ (some c) => rawValueCt c
  | .typed _ _ none => (.undef, 0)
  | .protoNode _ (some c) => rawValueCt c
  | .protoNode _ none => (.undef, 0)
  | .pairNode _ (some c) => rawValueCt c
  | .pairNode _ none => (.undef, 0)
  | .ctorNode _ cs =>
    let r := rawValueCtList cs
    (.arr r.1, r.2)
  | .arrNode cs =>
    let r := rawValueCtList cs
    (.arr r.1, r.2)
  | .objNode cs =>
    let r := rawValueCtPairs cs []
    (.obj r.1, r.2)

def rawValueCtList : List Node → List JSValue × Nat
  | [] => ([], 0)
  | c :: cs =>
    let r := rawValueCt c
    let rs := rawValueCtList cs
    (r.1 :: rs.1, r.2 + rs.2)

def rawValueCtPairs : List Node → List (String × JSValue) →
    List (String × JSValue) × Nat
  | [], fs => (fs, 0)
  | .pairNode k (some pc) :: cs, fs =>
    let r := rawValueCt pc
    let rs := rawValueCtPairs cs (upsert fs k r.1)
    (rs.1, r.2 + rs.2)
  | .pairNode k none :: cs, fs => rawValueCtPairs cs (upsert fs k .undef)
  | c :: cs, fs =>
    let r := rawValueCt c
    let rs := rawValueCtPairs cs (upsert fs ((Node.keyStr c).getD "undefined") r.1)
    (rs.1, r.2 + rs.2)

end

/-! ## Retagging: the `typeName` setter (`ast.ts` 48-64)

The setter mutates the live tree, so this model stores nodes in an arena of
stable indices; `ANode` carries exactly the mutable fields the setter can
touch.  The crucial host behaviour is that `children` is a *getter*: for
the `SimpleNode` subclasses (typed/proto/pair) it builds a fresh array, so
an index assignment into it is lost, while for the `CompoundNode`
subclasses (class/array/object) it is the stored array and the assignment
persists. -/

structure ANode where
  kind : NodeKind
  typeName : String
  parent : Option Nat
  childIdx : Option Nat
  childList : List Nat
  deriving DecidableEq, Repr

/-- The `children` getter on arena node `i`. -/
def aChildren (a : List ANode) (i : Nat) : List Nat :=
  match a[i]? with
  | some nd =>
    match nd.kind with
    | .primitive => []
    | .typed => nd.childIdx.toList
    | .proto => nd.childIdx.toList
    | .pair => nd.childIdx.toList
    | .classK => nd.childList
    | .array => nd.childList
    | .object => nd.childList
  | none => []

/-- `node.children[idx] = v`: persists only on the `CompoundNode` kinds
(on the others the write lands in the getter's fresh array and is lost). -/
def aAssignChild (a : List ANode) (i : Nat) (idx : Nat) (v : Nat) :
    List ANode :=
  match a[i]? with
  | some nd =>
    match nd.kind with
    | .classK => a.set i { nd with childList := jsSetIdx nd.childList idx v }
    | .array => a.set i { nd with childList := jsSetIdx nd.childList idx v }
    | .object => a.set i { nd with childList := jsSetIdx nd.childList idx v }
    | _ => a
  | none => a

/-- The `typeName` setter (`ast.ts` 48-64).  On a Typed node the tag is
replaced in place.  Otherwise, with a parent: the node's index among the
parent's children is found, a fresh Typed wrapper (already holding the node
as its `child`) is allocated, and `this.parent.children[pIdx] = n` is
executed — which only persists when the parent is a compound node.  With no
parent and a first child present: `this.children[0] = new TypedValueNode(…)`
(persists only if the node itself is compound, discarding its first child)
followed by `this.children[0].children[0] = this` on the re-read first
child.  Allocation appends to the arena even when the assignment is lost,
mirroring the host's discarded allocation. -/
def setTypeName (a : List ANode) (i : Nat) (name : String) : List ANode :=
  match a[i]? with
  | none => a
  | some nd =>
    if nd.kind ≠ NodeKind.typed then
      match nd.parent with
      | some p =>
        match (aChildren a p).findIdx? (fun j => j = i) with
        | some pIdx =>
          let w : ANode :=
            { kind := .typed, typeName := name, parent := none,
              childIdx := some i, childList := [] }
          aAssignChild (a ++ [w]) p pIdx a.length
        | none => a
      | none =>
        match (aChildren a i)[0]? with
        | some _ =>
          let w : ANode :=
            { kind := .typed, typeName := name, parent := none,
              childIdx := none, childList := [] }
          let a2 := aAssignChild (a ++ [w]) i 0 a.length
          match (aChildren a2 i)[0]? with
          | some t => aAssignChild a2 t 0 i
          | none => a2
        | none => a
    else
      a.set i { nd with typeName := name }

/-! ## Concrete documents for the self-hosting claim

The tree the front end builds for
`schema { X: maybe oneOf [bigint, number] }` (each bare identifier inside
the `oneOf` array is a `TValue` whose missing value becomes an implicit
`":undefined"` primitive child, per `TxListener.endNode`), and the trees
for `X null` and `X bigint "123"` (a `TypedValueNode`'s `text` is
`extractRuleValueText`, which for `bigint "123"` is the processed string
literal `123`). -/

def tyRefNode (name : String) : Node :=
  .typed name name (some (.prim ":undefined" .undef name))

def schemaDocNode : Node :=
  .typed ":document" "" (some
    (.typed "schema" "" (some
      (.objNode [
        .pairNode "X" (some
          (.typed "maybe" "" (some
            (.typed "oneOf" "" (some
              (.arrNode [tyRefNode "bigint", tyRefNode "number"]))))))]))))

def docXNullNode : Node :=
  .typed ":document" "null" (some
    (.typed "X" "null" (some (.prim ":null" .null "null"))))

def docXBigintNode : Node :=
  .typed ":document" "123" (some
    (.typed "X" "123" (some
      (.typed "bigint" "123" (some (.prim ":string" (.str "123") "123"))))))

/-- The schema that `parseSchema` produces for the document above
(extracted from the pipeline's result, so that the self-hosting theorem can
name it without restating it). -/
def parsedSchemaX : SchemaRepr :=
  match parseSchemaR 60 defaultSchemaR schemaDocNode with
  | .ok (.schemav s) => s
  | _ => defaultSchemaR

/-! ## Small fixtures used by witnesses and counterexamples -/

/-- A numeric literal node (`PrimitiveNode` with a `":number"` tag), as the
front end builds for a bare number. -/
def numNode (q : ℚ) : Node := .prim ":number" (.num q) ""

/-- A registry whose only entry is a wildcard validator (one that reports
no error on the nodes it is applied to below). -/
def wildcardOnlySchema : SchemaRepr :=
  .mk [] [] [("*", some .objectCheck)] [] [] []

/-- A typed node with an unregistered tag and no child. -/
def fooNode : Node := .typed "foo" "" none

/-- A registry whose only entry is a deserializer that returns `undefined`
for the key `"p"`. -/
def nullishDeserSchema : SchemaRepr :=
  .mk [] [] [] [("p", some .undefD)] [] []

/-- Arena: a root Object node (index 0) owning one primitive child
(index 1). -/
def rootObjArena : List ANode :=
  [{ kind := .object, typeName := ":object", parent := none,
     childIdx := none, childList := [1] },
   { kind := .primitive, typeName := ":number", parent := some 0,
     childIdx := none, childList := [] }]

/-- Arena: an Array parent (index 0) owning two primitive children
(indices 1 and 2). -/
def arrParentArena : List ANode :=
  [{ kind := .array, typeName := ":array", parent := none,
     childIdx := none, childList := [1, 2] },
   { kind := .primitive, typeName := ":number", parent := some 0,
     childIdx := none, childList := [] },
   { kind := .primitive, typeName := ":string", parent := some 0,
     childIdx := none, childList := [] }]

/-- Arena: a Pair parent (index 0, a `SimpleNode`) owning one primitive
child (index 1). -/
def pairParentArena : List ANode :=
  [{ kind := .pair, typeName := ":pair", parent := none,
     childIdx := some 1, childList := [] },
   { kind := .primitive, typeName := ":number", parent := some 0,
     childIdx := none, childList := [] }]

/-- The Typed wrapper node the setter allocates in the has-parent branch
(`n.child = this` before the splice). -/
@[reducible] def c8Wrapper (name : String) (i : Nat) : ANode :=
  { kind := .typed, typeName := name, parent := none,
    childIdx := some i, childList := [] }

/-- The Typed wrapper node the setter allocates in the root branch (its
`child` is still unset when it is written into `children[0]`). -/
@[reducible] def c8RootWrapper (name : String) : ANode :=
  { kind := .typed, typeName := name, parent := none,
    childIdx := none, childList := [] }

/-- The five registry tables of a schema, bundled (used to state that an
operation leaves all of them unchanged). -/
def tablesOf (s : SchemaRepr) :
    List String × List String × List (String × Option VCode) ×
      List (String × Option DCode) × List (String × Option PCode) :=
  (s.classes, s.prototypes, s.validators, s.deserializers, s.preprocessors)

/-- Declarative (per-field) description of the error set the `TObject`
validator is specified to collect on an object input — the claim-side
formulation, to be compared with the imperative two-pass collection of
`tobjValidatorF`: for each declared field, its validator's (simplified)
error if the field is present and fails, a `missing field` error if it is
absent and not `Maybe`-wrapped, nothing if absent but `Maybe`-wrapped; plus
an `unknown field` error for each input key outside the field set. -/
def tobjDeclaredErrs (fields : List (String × Bool × ValidatorF))
    (ctx : List Node) (acc : Node) : List (String × VErr) :=
  fields.filterMap (fun f =>
    match (acc.childrenView.find? (fun c => c.keyStr = some f.1)).bind
        (fun p => (p.childrenView[0]?).map (fun v => (p, v))) with
    | none => if f.2.1 then none else some (f.1, .mk (.missingField f.1) true)
    | some pv => (f.2.2 (pv.1 :: acc :: ctx) pv.2).map (fun e => (f.1, e.simplify)))
  ++ tobjUnknownV (fields.map (fun f => f.1)) (jsKeys acc.rawValue)

/-!
# Theorems
-/

/-! ## Shared lemmas -/

theorem runPCode_tables (p : PCode) (s : SchemaRepr) (n : Node) :
    tablesOf (runPCode p s n) = tablesOf s := by
  cases p
  show tablesOf (docPreRun s n) = tablesOf s
  unfold docPreRun
  split <;> rfl

theorem preprocessOwn_tables (t : String) (n : Node) (s : SchemaRepr) :
    tablesOf (preprocessOwn t n s) = tablesOf s := by
  unfold preprocessOwn
  cases tableVal s.preprocessors t with
  | none => rfl
  | some p => exact runPCode_tables p s n

mutual

theorem preprocessNode_tables (n : Node) (s : SchemaRepr) :
    tablesOf (preprocessNode n s) = tablesOf s := by
  cases n with
  | prim t raw text => exact preprocessOwn_tables t _ s
  | typed t text c =>
    cases c with
    | none => exact preprocessOwn_tables t _ s
    | some c =>
      exact (preprocessNode_tables c _).trans (preprocessOwn_tables t _ s)
  | protoNode t c =>
    cases c with
    | none => rfl
    | some c => exact preprocessNode_tables c s
  | pairNode k c =>
    cases c with
    | none => rfl
    | some c => exact preprocessNode_tables c s
  | ctorNode t cs => exact preprocessList_tables cs s
  | arrNode cs => exact preprocessList_tables cs s
  | objNode cs => exact preprocessList_tables cs s

theorem preprocessList_tables (ns : List Node) (s : SchemaRepr) :
    tablesOf (preprocessList ns s) = tablesOf s := by
  cases ns with
  | nil => rfl
  | cons c rest =>
    exact (preprocessList_tables rest _).trans (preprocessNode_tables c s)

end

mutual

theorem rawValueCt_fst_snd (n : Node) : rawValueCt n = (Node.rawValue n, 0) := by
  cases n with
  | prim t v txt => rfl
  | typed t txt c =>
    cases c with
    | none => rfl
    | some c =>
      show rawValueCt c = _
      rw [rawValueCt_fst_snd c]
      rfl
  | protoNode t c =>
    cases c with
    | none => rfl
    | some c =>
      show rawValueCt c = _
      rw [rawValueCt_fst_snd c]
      rfl
  | pairNode k c =>
    cases c with
    | none => rfl
    | some c =>
      show rawValueCt c = _
      rw [rawValueCt_fst_snd c]
      rfl
  | ctorNode t cs =>
    show (_, _) = _
    rw [show rawValueCtList cs = (Node.rawValueList cs, 0) from rawValueCtList_fst_snd cs]
    rfl
  | arrNode cs =>
    show (_, _) = _
    rw [show rawValueCtList cs = (Node.rawValueList cs, 0) from rawValueCtList_fst_snd cs]
    rfl
  | objNode cs =>
    show (_, _) = _
    rw [show rawValueCtPairs cs [] = (Node.rawValuePairs cs [], 0) from
      rawValueCtPairs_fst_snd cs []]
    rfl

theorem rawValueCtList_fst_snd (ns : List Node) :
    rawValueCtList ns = (Node.rawValueList ns, 0) := by
  cases ns with
  | nil => rfl
  | cons c cs =>
    show (_, _) = _
    rw [show rawValueCt c = (Node.rawValue c, 0) from rawValueCt_fst_snd c,
      show rawValueCtList cs = (Node.rawValueList cs, 0) from rawValueCtList_fst_snd cs]
    rfl

theorem rawValueCtPairs_fst_snd (ns : List Node) (fs : List (String × JSValue)) :
    rawValueCtPairs ns fs = (Node.rawValuePairs ns fs, 0) := by
  cases ns with
  | nil => rfl
  | cons c cs =>
    cases c with
    | pairNode k pc =>
      cases pc with
      | none => exact rawValueCtPairs_fst_snd cs _
      | some pc =>
        show (_, _) = _
        rw [rawValueCt_fst_snd pc, rawValueCtPairs_fst_snd cs]
        rfl
    | prim t v txt =>
      show (_, _) = _
      rw [rawValueCt_fst_snd (Node.prim t v txt), rawValueCtPairs_fst_snd cs]
      rfl
    | typed t txt c' =>
      show (_, _) = _
      rw [rawValueCt_fst_snd (Node.typed t txt c'), rawValueCtPairs_fst_snd cs]
      rfl
    | protoNode t c' =>
      show (_, _) = _
      rw [rawValueCt_fst_snd (Node.protoNode t c'), rawValueCtPairs_fst_snd cs]
      rfl
    | ctorNode t cs' =>
      show (_, _) = _
      rw [rawValueCt_fst_snd (Node.ctorNode t cs'), rawValueCtPairs_fst_snd cs]
      rfl
    | arrNode cs' =>
      show (_, _) = _
      rw [rawValueCt_fst_snd (Node.arrNode cs'), rawValueCtPairs_fst_snd cs]
      rfl
    | objNode cs' =>
      show (_, _) = _
      rw [rawValueCt_fst_snd (Node.objNode cs'), rawValueCtPairs_fst_snd cs]
      rfl

end

/-! ## Claims -/

/-- C1: for every node, reading `.value` a second time returns the
identical cached result of the first successful read (with no further
deserializer invocation, so at most one in total, since one `getValue` run
of a primitive node invokes the registered deserializer at most once); if
`getValue` throws on the first access nothing is cached and the computation
is retried (same invocation count) on the next access; and computing
`rawValue` performs zero deserializer invocations. -/
theorem claim_C1_value_memoization :
    (∀ (g : Except VErr JSValue) (gc : Nat) (v : JSValue), g = .ok v →
       valueRead g gc none = (.ok v, some v, gc) ∧
       valueRead g gc (valueRead g gc none).2.1 = (.ok v, some v, 0)) ∧
    (∀ (g : Except VErr JSValue) (gc : Nat) (e : VErr), g = .error e →
       valueRead g gc none = (.error e, none, gc) ∧
       valueRead g gc (valueRead g gc none).2.1 = (.error e, none, gc)) ∧
    (∀ (fuel : Nat) (s : SchemaRepr) (ctx : List Node) (n : Node),
       (primGetValueCt fuel s ctx n).2 ≤ 1) ∧
    (∀ (fuel : Nat) (s : SchemaRepr) (ctx : List Node) (t : String)
       (raw : JSValue) (text : String),
       nodeValue (fuel + 1) s ctx (.prim t raw text) =
         (primGetValueCt fuel s ctx (.prim t raw text)).1) ∧
    (∀ n : Node, rawValueCt n = (Node.rawValue n, 0)) := by
  refine ⟨?_, ?_, ?_, ?_, rawValueCt_fst_snd⟩
  · intro g gc v h
    subst h
    exact ⟨rfl, rfl⟩
  · intro g gc e h
    subst h
    exact ⟨rfl, rfl⟩
  · intro fuel s ctx n
    unfold primGetValueCt
    cases tableValStar s.deserializers n.typeName with
    | none => exact Nat.zero_le 1
    | some d => exact Nat.le_refl 1
  · intro fuel s ctx t raw text
    show (match tableValStar s.deserializers t with
      | some d =>
        (do
          let v ← evalD fuel d s ctx (.prim t raw text)
          pure (if isNullish v then raw else v) : Except VErr JSValue)
      | none => .ok raw) = _
    unfold primGetValueCt
    rw [show (Node.prim t raw text).typeName = t from rfl,
      show (Node.prim t raw text).rawValue = raw from rfl]
    cases tableValStar s.deserializers t with
    | none => rfl
    | some d =>
      dsimp only
      cases evalD fuel d s ctx (.prim t raw text) with
      | ok v => rfl
      | error e => rfl

/-- Closed instance of C1 at a concrete primitive node under the default
schema: the `int` deserializer is invoked once (`primGetValueCt` at
`int 1.5` yields `1` with invocation count `1`); the first read caches
`1` and the second read returns the identical result with zero further
invocations. -/
theorem claim_C1_value_memoization_witness :
    primGetValueCt 5 defaultSchemaR [] (.prim "int" (.num (Rat.mk' 3 2)) "1.5") =
      (.ok (.num 1), 1) ∧
    valueRead (.ok (.num 1)) 1 none = (.ok (.num 1), some (.num 1), 1) ∧
    valueRead (.ok (.num 1)) 1 (valueRead (.ok (.num 1)) 1 none).2.1 =
      (.ok (.num 1), some (.num 1), 0) :=
  ⟨rfl,
   (claim_C1_value_memoization.1 (.ok (.num 1)) 1 (.num 1) rfl).1,
   (claim_C1_value_memoization.1 (.ok (.num 1)) 1 (.num 1) rfl).2⟩

/-- C2: parsing the schema document `schema { X: maybe oneOf [bigint,
number] }` through the bootstrap (`parseSchema` over the default base
schema) yields a Schema; under that schema, `parse("X null")` returns
`null` and `parse("X bigint \"123\"")` returns the arbitrary-precision
integer `123`. -/
theorem claim_C2_selfhosting :
    parseSchemaR 60 defaultSchemaR schemaDocNode = .ok (.schemav parsedSchemaX) ∧
    runParse 60 parsedSchemaX docXNullNode = .ok .null ∧
    runParse 60 parsedSchemaX docXBigintNode = .ok (.bigint 123) :=
  ⟨rfl, rfl, rfl⟩

/-- C5: the `int8` validator as built in `numericValidators`, evaluated on
concrete numeric raw values: it accepts `127` and rejects `128` and `1.5`
as the claim states — but it rejects the integral in-range value `-5` with
`expected positive value for type "uint8"`, because the `int8` entry is
built with `createUintValidator` and `"uint8"` labels, contradicting its
own declared `[-128, 127]` bounds (which the positivity check makes
unreachable below `0`). -/
theorem claim_C5_int8_bounds :
    evalV 10 int8C defaultSchemaR [] (numNode 127) = none ∧
    evalV 10 int8C defaultSchemaR [] (numNode 128) =
      some (.mk (.text "expected number in range -128-127 for type \"uint8\"") false) ∧
    evalV 10 int8C defaultSchemaR [] (numNode (Rat.mk' 3 2)) =
      some (.mk (.text "non-integer value found for type \"uint8\"") false) ∧
    evalV 10 int8C defaultSchemaR [] (numNode (-5)) =
      some (.mk (.text "expected positive value for type \"uint8\"") false) :=
  ⟨rfl, rfl, rfl, rfl⟩

/-- C7 counterexample: preprocessing a document's node tree does modify the
schema object it consumes — running the bootstrap's preprocessing pass over
the schema document changes the schema (its `meta.knownTypes` set gains the
document's top-level keys). -/
theorem claim_C7_counterexample :
    preprocessNode schemaDocNode (createSchemaOfSchemaR defaultSchemaR) ≠
      createSchemaOfSchemaR defaultSchemaR := by
  intro h
  have h2 := congrArg SchemaRepr.knownTypes h
  rw [show (preprocessNode schemaDocNode (createSchemaOfSchemaR defaultSchemaR)).knownTypes
      = ["X"] from rfl] at h2
  rw [show (createSchemaOfSchemaR defaultSchemaR).knownTypes = ([] : List String)
      from rfl] at h2
  exact List.cons_ne_nil _ _ h2

/-- C7 (amended): the five registry tables (`classes`, `prototypes`,
`validators`, `deserializers`, `preprocessors`) of a schema are never
modified by preprocessing a node tree (validators and deserializers, being
pure functions of the schema and tree in this model, modify nothing); only
the `meta.knownTypes` component may change. -/
theorem claim_C7_schema_immutability :
    ∀ (n : Node) (s : SchemaRepr), tablesOf (preprocessNode n s) = tablesOf s :=
  preprocessNode_tables

/-- C6 counterexample: a node whose typeName has no entry in any of the
schema's classes, prototypes, deserializers or validators tables (and does
not start with `":"`) — the claim's exact condition for an "unknown type"
throw — passes `validate()` without any error when the schema carries a
wildcard `"*"` validator. -/
theorem claim_C6_counterexample :
    strStartsWith "foo" ":" = false ∧
    wildcardOnlySchema.classes.contains "foo" = false ∧
    wildcardOnlySchema.prototypes.contains "foo" = false ∧
    hasKey wildcardOnlySchema.deserializers "foo" = false ∧
    hasKey wildcardOnlySchema.validators "foo" = false ∧
    validateSelfR 4 wildcardOnlySchema [] fooNode = none ∧
    validateNode 4 wildcardOnlySchema [] fooNode = none :=
  ⟨rfl, rfl, rfl, rfl, rfl, rfl, rfl⟩

/-- C6 (amended): `validate()`'s own check throws an "unknown type" error
exactly when the typeName does not start with `":"`, the schema has **no
wildcard `"*"` validator**, and the typeName has no entry in any of the
classes, prototypes, deserializers or validators tables; otherwise the
validator registered under the typeName (or, failing that, the wildcard
validator), if any, is invoked and its outcome decides. -/
theorem claim_C6_unknown_type_condition :
    ∀ (fuel : Nat) (s : SchemaRepr) (ctx : List Node) (n : Node),
      (strStartsWith n.typeName ":" = false →
       hasKey s.validators "*" = false →
       s.classes.contains n.typeName = false →
       s.prototypes.contains n.typeName = false →
       hasKey s.deserializers n.typeName = false →
       hasKey s.validators n.typeName = false →
       validateSelfR (fuel + 1) s ctx n =
         some (.mk (.unknownType n.typeName) false)) ∧
      ((strStartsWith n.typeName ":" = true ∨ hasKey s.validators "*" = true ∨
        s.classes.contains n.typeName = true ∨
        s.prototypes.contains n.typeName = true ∨
        hasKey s.deserializers n.typeName = true ∨
        hasKey s.validators n.typeName = true) →
       validateSelfR (fuel + 1) s ctx n =
         (match tableValStar s.validators n.typeName with
          | some code => evalV fuel code s ctx n
          | none => none)) := by
  intro fuel s ctx n
  constructor
  · intro h1 h2 h3 h4 h5 h6
    have hg : (strStartsWith n.typeName ":" || hasKey s.validators "*" ||
        s.classes.contains n.typeName || s.prototypes.contains n.typeName ||
        hasKey s.deserializers n.typeName || hasKey s.validators n.typeName) = false := by
      rw [h1, h2, h3, h4, h5, h6]; rfl
    unfold validateSelfR
    dsimp only
    rw [hg]
    rfl
  · intro h
    have hg : (strStartsWith n.typeName ":" || hasKey s.validators "*" ||
        s.classes.contains n.typeName || s.prototypes.contains n.typeName ||
        hasKey s.deserializers n.typeName || hasKey s.validators n.typeName) = true := by
      rcases h with h | h | h | h | h | h <;> rw [h] <;> simp
    unfold validateSelfR
    dsimp only
    rw [hg]
    rfl

/-- Closed instance of C6's amended statement: under a registry with no
wildcard validator, the unregistered tag `foo` makes `validate()` throw the
unknown-type error. -/
theorem claim_C6_unknown_type_condition_witness :
    validateSelfR 4 nullishDeserSchema [] fooNode =
      some (.mk (.unknownType "foo") false) :=
  (claim_C6_unknown_type_condition 3 nullishDeserSchema [] fooNode).1
    rfl rfl rfl rfl rfl rfl

/-- C9: with a wildcard `"*"` validator registered but no wildcard
deserializer, a typed node whose tag is not `":"`-prefixed and absent from
both the deserializers and validators tables has its validation decided by
the wildcard validator (so it passes whenever that validator reports no
error), yet reading `.value` on it throws an "unknown type" error:
successful validation does not guarantee that deserialization can resolve
the type. -/
theorem claim_C9_validate_value_mismatch :
    ∀ (fuel : Nat) (s : SchemaRepr) (ctx : List Node) (t text : String)
      (child : Option Node) (w : VCode),
      strStartsWith t ":" = false →
      hasKey s.deserializers t = false →
      hasKey s.validators t = false →
      hasKey s.deserializers "*" = false →
      tableVal s.validators "*" = some w →
      (validateSelfR (fuel + 1) s ctx (.typed t text child) =
         evalV fuel w s ctx (.typed t text child)) ∧
      (evalV fuel w s ctx (.typed t text child) = none →
         validateSelfR (fuel + 1) s ctx (.typed t text child) = none) ∧
      nodeValue (fuel + 1) s ctx (.typed t text child) =
        .error (.mk (.unknownType t) false) := by
  intro fuel s ctx t text child w h1 h2 h3 h4 h5
  have hnv : nodeValue (fuel + 1) s ctx (.typed t text child) =
      (if hasKey s.deserializers t || hasKey s.validators t then
         (match tableVal s.deserializers t with
          | some d => evalD fuel d s ctx (.typed t text child)
          | none =>
            match child with
            | some c => nodeValue fuel s ((Node.typed t text child) :: ctx) c
            | none => .ok .undef)
       else if hasKey s.deserializers "*" then
         (match tableVal s.deserializers "*" with
          | some d => evalD fuel d s ctx (.typed t text child)
          | none =>
            .error (.mk (.jsTypeError "deserializers[\"*\"] is undefined") false))
       else if strStartsWith t ":" then
         (match child with
          | some c => nodeValue fuel s ((Node.typed t text child) :: ctx) c
          | none => .ok .undef)
       else .error (.mk (.unknownType t) false)) := rfl
  have hstar : hasKey s.validators "*" = true := by
    unfold hasKey
    unfold tableVal at h5
    cases hg : tableGet s.validators "*" with
    | none => rw [hg] at h5; exact absurd h5 (by simp)
    | some o => simp [hg]
  have htv : tableVal s.validators t = none := by
    unfold hasKey at h3
    unfold tableVal
    cases hg : tableGet s.validators t with
    | none => rfl
    | some o => rw [hg] at h3; simp at h3
  have hmain : validateSelfR (fuel + 1) s ctx (.typed t text child) =
      evalV fuel w s ctx (.typed t text child) := by
    unfold validateSelfR
    dsimp only
    have hguard : (strStartsWith (Node.typed t text child).typeName ":" ||
        hasKey s.validators "*" ||
        s.classes.contains (Node.typed t text child).typeName ||
        s.prototypes.contains (Node.typed t text child).typeName ||
        hasKey s.deserializers (Node.typed t text child).typeName ||
        hasKey s.validators (Node.typed t text child).typeName) = true := by
      show (strStartsWith t ":" || hasKey s.validators "*" ||
        s.classes.contains t || s.prototypes.contains t ||
        hasKey s.deserializers t || hasKey s.validators t) = true
      rw [hstar]
      simp
    rw [hguard]
    show (match tableValStar s.validators t with
      | some code => evalV fuel code s ctx (.typed t text child)
      | none => none) = _
    unfold tableValStar
    rw [htv, h5]
    rfl
  refine ⟨hmain, fun hw => hmain.trans hw, ?_⟩
  rw [hnv, h1, h2, h3, h4]
  rfl

/-- Closed instance of C9: under a registry whose only entry is an
always-passing wildcard validator, the typed node `foo` passes validation
but `.value` throws the unknown-type error. -/
theorem claim_C9_validate_value_mismatch_witness :
    validateSelfR 4 wildcardOnlySchema [] fooNode = none ∧
    nodeValue 4 wildcardOnlySchema [] fooNode =
      .error (.mk (.unknownType "foo") false) :=
  ⟨(claim_C9_validate_value_mismatch 3 wildcardOnlySchema [] "foo" "" none
      .objectCheck rfl rfl rfl rfl rfl).2.1 rfl,
   (claim_C9_validate_value_mismatch 3 wildcardOnlySchema [] "foo" "" none
      .objectCheck rfl rfl rfl rfl rfl).2.2⟩

/-- C10: for a primitive node, when the specific-or-wildcard deserializer
lookup finds a deserializer and it returns `null` or `undefined`, `.value`
evaluates to the node's `rawValue` instead; consequently a primitive whose
`rawValue` is neither `null` nor `undefined` can never evaluate to a `null`
or `undefined` value. -/
theorem claim_C10_nullish_deserializer :
    ∀ (fuel : Nat) (s : SchemaRepr) (ctx : List Node) (t : String)
      (raw : JSValue) (text : String),
      (∀ d v, tableValStar s.deserializers t = some d →
        evalD fuel d s ctx (.prim t raw text) = .ok v → isNullish v = true →
        nodeValue (fuel + 1) s ctx (.prim t raw text) = .ok raw) ∧
      (isNullish raw = false →
        ∀ w, nodeValue (fuel + 1) s ctx (.prim t raw text) = .ok w →
          isNullish w = false) := by
  intro fuel s ctx t raw text
  have hval : nodeValue (fuel + 1) s ctx (.prim t raw text) =
      (match tableValStar s.deserializers t with
       | some d =>
         (do
           let v ← evalD fuel d s ctx (.prim t raw text)
           pure (if isNullish v then raw else v) : Except VErr JSValue)
       | none => .ok raw) := rfl
  constructor
  · intro d v hd hv hnull
    rw [hval, hd]
    show (do
        let v ← evalD fuel d s ctx (.prim t raw text)
        pure (if isNullish v then raw else v) : Except VErr JSValue) = _
    rw [hv]
    simp [hnull]
  · intro hraw w hw
    rw [hval] at hw
    cases hlook : tableValStar s.deserializers t with
    | none =>
      rw [hlook] at hw
      simp at hw
      rw [← hw]
      exact hraw
    | some d =>
      rw [hlook] at hw
      dsimp only at hw
      cases he : evalD fuel d s ctx (.prim t raw text) with
      | error e => rw [he] at hw; exact absurd hw (by simp)
      | ok v =>
        rw [he] at hw
        simp at hw
        cases hnv : isNullish v with
        | true => rw [hnv] at hw; simp at hw; rw [← hw]; exact hraw
        | false => rw [hnv] at hw; simp at hw; rw [← hw]; exact hnv

/-- Closed instance of C10: a deserializer that returns `undefined` for the
key `"p"` makes `.value` of a `p`-tagged primitive with raw value `1`
evaluate to `1`, the raw value. -/
theorem claim_C10_nullish_deserializer_witness :
    tableValStar nullishDeserSchema.deserializers "p" = some .undefD ∧
    nodeValue 4 nullishDeserSchema [] (.prim "p" (.num 1) "") = .ok (.num 1) :=
  ⟨rfl,
   (claim_C10_nullish_deserializer 3 nullishDeserSchema [] "p" (.num 1) "").1
     .undefD .undef rfl rfl rfl⟩

/-! ### Lemmas on the `OneOf` try loops -/

theorem flattenGroups_cons (k : String) (es : List VErr)
    (gs : List (String × List VErr)) :
    flattenGroups ((k, es) :: gs) =
      es.map (fun e => (k, e)) ++ flattenGroups gs := rfl

theorem pushGrouped_map_id (gs : List (String × List VErr)) (k : String)
    (e : VErr) (hk : ∀ g ∈ gs, g.1 ≠ k) :
    gs.map (fun g => if g.1 = k then (g.1, g.2 ++ [e]) else g) = gs := by
  induction gs with
  | nil => rfl
  | cons hd tl ih =>
    simp only [List.map_cons, if_neg (hk hd (List.mem_cons_self hd tl))]
    rw [ih (fun g hg => hk g (List.mem_cons_of_mem hd hg))]

theorem flattenGroups_pushGrouped (gs : List (String × List VErr))
    (k : String) (e : VErr) (h : (gs.map Prod.fst).Nodup) :
    (flattenGroups (pushGrouped gs k e)).Perm (flattenGroups gs ++ [(k, e)]) := by
  induction gs with
  | nil =>
    simp [pushGrouped, flattenGroups]
  | cons hd tl ih =>
    obtain ⟨k₁, es₁⟩ := hd
    simp only [List.map_cons, List.nodup_cons] at h
    obtain ⟨hk₁, htl⟩ := h
    unfold pushGrouped
    by_cases hk : k₁ = k
    · subst hk
      have hany : ((k₁, es₁) :: tl).any (fun g => g.1 = k₁) = true := by
        simp [List.any_cons]
      rw [if_pos hany]
      have hmap :
          ((k₁, es₁) :: tl).map (fun g => if g.1 = k₁ then (g.1, g.2 ++ [e]) else g) =
            (k₁, es₁ ++ [e]) :: tl := by
        simp only [List.map_cons]
        rw [pushGrouped_map_id tl k₁ e
          (fun g hg hgk => hk₁ (hgk ▸ List.mem_map_of_mem Prod.fst hg))]
        simp
      rw [hmap, flattenGroups_cons, flattenGroups_cons, List.map_append]
      have hstep : es₁.map (fun x => (k₁, x)) ++ ([e].map (fun x => (k₁, x)) ++ flattenGroups tl)
          |>.Perm (es₁.map (fun x => (k₁, x)) ++ (flattenGroups tl ++ [e].map (fun x => (k₁, x)))) :=
        List.Perm.append_left _ List.perm_append_comm
      simpa [List.append_assoc] using hstep
    · cases hany : tl.any (fun g => g.1 = k) with
      | true =>
        have hall : ((k₁, es₁) :: tl).any (fun g => g.1 = k) = true := by
          simp [List.any_cons, hany]
        rw [if_pos hall]
        have hmap :
            ((k₁, es₁) :: tl).map (fun g => if g.1 = k then (g.1, g.2 ++ [e]) else g) =
              (k₁, es₁) :: pushGrouped tl k e := by
          simp only [List.map_cons, if_neg hk]
          unfold pushGrouped
          rw [if_pos hany]
        rw [hmap, flattenGroups_cons, flattenGroups_cons]
        have hstep := List.Perm.append_left (es₁.map (fun x => (k₁, x))) (ih htl)
        simpa [List.append_assoc] using hstep
      | false =>
        have hall : ((k₁, es₁) :: tl).any (fun g => g.1 = k) = false := by
          simp [List.any_cons, hany, hk]
        rw [if_neg (by simp [hall])]
        have hpush : pushGrouped tl k e = tl ++ [(k, [e])] := by
          unfold pushGrouped
          rw [if_neg (by simp [hany])]
        have hstep2 : ((k₁, es₁) :: tl) ++ [(k, [e])] =
            (k₁, es₁) :: pushGrouped tl k e := by
          rw [hpush]; rfl
        rw [hstep2, flattenGroups_cons, flattenGroups_cons]
        have hstep := List.Perm.append_left (es₁.map (fun x => (k₁, x))) (ih htl)
        simpa [List.append_assoc] using hstep

theorem pushGrouped_keys_nodup (gs : List (String × List VErr)) (k : String)
    (e : VErr) (h : (gs.map Prod.fst).Nodup) :
    ((pushGrouped gs k e).map Prod.fst).Nodup := by
  unfold pushGrouped
  split
  · have : (gs.map (fun g => if g.1 = k then (g.1, g.2 ++ [e]) else g)).map Prod.fst =
        gs.map Prod.fst := by
      rw [List.map_map]
      apply List.map_congr_left
      intro g _
      show (if g.1 = k then (g.1, g.2 ++ [e]) else g).1 = g.1
      split <;> rfl
    rw [this]; exact h
  · rename_i hany
    rw [List.map_append]
    refine List.Nodup.append h (by simp) ?_
    intro x hx hy
    simp at hy
    subst hy
    apply hany
    simp only [List.mem_map] at hx
    obtain ⟨g, hg, hgk⟩ := hx
    exact List.any_eq_true.mpr ⟨g, hg, by simp [hgk]⟩

theorem oneOfTryV_none_iff (sig : String) (ctx : List Node) (acc : Node)
    (children : List (String × ValidatorF)) :
    ∀ gs, (oneOfTryV sig ctx acc children gs = none ↔
      ∃ p ∈ children, p.2 ctx acc = none) := by
  induction children with
  | nil =>
    intro gs
    simp [oneOfTryV]
  | cons hd tl ih =>
    obtain ⟨sg, v⟩ := hd
    intro gs
    cases h : v ctx acc with
    | none =>
      simp only [oneOfTryV, h]
      constructor
      · intro _
        exact ⟨(sg, v), List.mem_cons_self _ _, h⟩
      · intro _
        trivial
    | some e =>
      simp only [oneOfTryV, h]
      rw [ih]
      constructor
      · rintro ⟨p, hp, hnone⟩
        exact ⟨p, List.mem_cons_of_mem _ hp, hnone⟩
      · rintro ⟨p, hp, hnone⟩
        rcases List.mem_cons.mp hp with hpe | hp'
        · subst hpe
          dsimp only at hnone
          rw [h] at hnone
          cases hnone
        · exact ⟨p, hp', hnone⟩

theorem oneOfTryV_allFail (sig : String) (ctx : List Node) (acc : Node)
    (children : List (String × ValidatorF))
    (hfail : ∀ p ∈ children, p.2 ctx acc ≠ none) :
    ∀ gs, oneOfTryV sig ctx acc children gs =
      some (oneOfComposedErr sig (children.foldl
        (fun g p => pushGrouped g p.1 (((p.2 ctx acc).getD fuelErr).simplify)) gs)) := by
  induction children with
  | nil => intro gs; rfl
  | cons hd tl ih =>
    obtain ⟨sg, v⟩ := hd
    intro gs
    cases h : v ctx acc with
    | none =>
      exact absurd h (hfail (sg, v) (List.mem_cons_self _ _))
    | some e =>
      simp only [oneOfTryV, h]
      rw [ih (fun p hp => hfail p (List.mem_cons_of_mem _ hp))]
      simp only [List.foldl_cons, h]
      rfl

theorem oneOfFold_flatten_perm (sig : String) (ctx : List Node) (acc : Node)
    (children : List (String × ValidatorF)) :
    ∀ gs, (gs.map Prod.fst).Nodup →
      (flattenGroups (children.foldl
        (fun g p => pushGrouped g p.1 (((p.2 ctx acc).getD fuelErr).simplify)) gs)).Perm
      (flattenGroups gs ++
        children.map (fun p => (p.1, ((p.2 ctx acc).getD fuelErr).simplify))) := by
  induction children with
  | nil => intro gs _; simp
  | cons hd tl ih =>
    intro gs hnd
    simp only [List.foldl_cons, List.map_cons]
    have h1 := ih (pushGrouped gs hd.1 (((hd.2 ctx acc).getD fuelErr).simplify))
      (pushGrouped_keys_nodup gs _ _ hnd)
    refine h1.trans ?_
    have h2 := flattenGroups_pushGrouped gs hd.1
      (((hd.2 ctx acc).getD fuelErr).simplify) hnd
    refine (List.Perm.append_right _ h2).trans ?_
    rw [List.append_assoc]
    rfl

/-- The imperative declared-field pass accumulates exactly the per-field
`filterMap` the claim describes, appended to whatever was already
collected. -/
theorem tobjFieldsV_spec (objCtx : List Node) (obj : Node)
    (fields : List (String × Bool × ValidatorF)) :
    ∀ errors, tobjFieldsV objCtx obj fields errors =
      errors ++ fields.filterMap (fun f =>
        match (obj.childrenView.find? (fun c => c.keyStr = some f.1)).bind
            (fun p => (p.childrenView[0]?).map (fun v => (p, v))) with
        | none => if f.2.1 then none else some (f.1, .mk (.missingField f.1) true)
        | some pv =>
          (f.2.2 (pv.1 :: obj :: objCtx) pv.2).map (fun e => (f.1, e.simplify))) := by
  induction fields with
  | nil => intro errors; simp [tobjFieldsV]
  | cons hd tl ih =>
    obtain ⟨k, optional, v⟩ := hd
    intro errors
    rw [List.filterMap_cons]
    show tobjFieldsV objCtx obj ((k, optional, v) :: tl) errors = _
    unfold tobjFieldsV
    dsimp only
    cases hpc : (obj.childrenView.find? (fun c => c.keyStr = some k)).bind
        (fun p => (p.childrenView[0]?).map (fun w => (p, w))) with
    | none =>
      cases optional with
      | true => simp only [if_pos rfl]; rw [ih]; simp
      | false =>
        rw [if_neg (by simp)]
        rw [ih]
        simp
    | some pv =>
      obtain ⟨p, w⟩ := pv
      dsimp only
      cases hv : v (p :: obj :: objCtx) w with
      | none => dsimp only; rw [ih]; simp
      | some e =>
        dsimp only
        rw [ih (errors ++ [(k, e.simplify)])]
        simp


theorem oneOfTryD_first (sig : String) (cctx : List Node) (child : Node)
    (pre : List (ValidatorF × DeserializerF)) :
    ∀ (v : ValidatorF) (d : DeserializerF) rest errs val,
      (∀ p ∈ pre, p.1 cctx child ≠ none) →
      v cctx child = none → d cctx child = .ok val →
      oneOfTryD sig cctx child (pre ++ (v, d) :: rest) errs = .ok val := by
  induction pre with
  | nil =>
    intro v d rest errs val _ hv hd
    simp only [List.nil_append, oneOfTryD, hv, hd]
  | cons hd0 tl ih =>
    obtain ⟨v0, d0⟩ := hd0
    intro v d rest errs val hpre hv hd
    cases h0 : v0 cctx child with
    | none =>
      exact absurd h0 (hpre (v0, d0) (List.mem_cons_self _ _))
    | some e =>
      simp only [List.cons_append, oneOfTryD, h0]
      exact ih v d rest errs val
        (fun p hp => hpre p (List.mem_cons_of_mem _ hp)) hv hd

/-- C3: for every `OneOf` union, the validator tries the alternatives'
validators in declaration order and succeeds exactly when some alternative
reports no error (the first such alternative ends the try); when every
alternative fails, one composed error is produced whose parts list every
alternative's (simplified) failure; the deserializer runs the same ordered
try on the unwrapped value and returns the result of the deserializer of
the first alternative whose validator passes; in particular
`oneOf [A, B]` yields A's interpretation whenever both A and B validate
the same input. -/
theorem claim_C3_oneof_ordering :
    ∀ (sig : String) (ctx : List Node) (acc : Node),
      (∀ children : List (String × ValidatorF),
        (oneOfValidatorF children sig ctx acc = none ↔
          ∃ p ∈ children, p.2 ctx acc = none)) ∧
      (∀ children : List (String × ValidatorF),
        (∀ p ∈ children, p.2 ctx acc ≠ none) →
        ∃ parts, oneOfValidatorF children sig ctx acc =
            some (.mk (.composedV
              ("expected: `" ++ sig ++ "`, validation failed with errors") parts) false) ∧
          parts.Perm (children.map
            (fun p => (p.1, ((p.2 ctx acc).getD fuelErr).simplify)))) ∧
      (∀ (pre rest : List (ValidatorF × DeserializerF)) (v : ValidatorF)
         (d : DeserializerF) (cctx : List Node) (child : Node) (val : JSValue),
        oneOfUnwrap ctx acc = some (cctx, child) →
        (∀ p ∈ pre, p.1 cctx child ≠ none) →
        v cctx child = none → d cctx child = .ok val →
        oneOfDeserializerF (pre ++ (v, d) :: rest) sig ctx acc = .ok val) ∧
      (∀ (vA vB : ValidatorF) (dA dB : DeserializerF) (cctx : List Node)
         (child : Node) (a : JSValue),
        oneOfUnwrap ctx acc = some (cctx, child) →
        vA cctx child = none → vB cctx child = none → dA cctx child = .ok a →
        oneOfDeserializerF [(vA, dA), (vB, dB)] sig ctx acc = .ok a) := by
  intro sig ctx acc
  refine ⟨?_, ?_, ?_, ?_⟩
  · intro children
    exact oneOfTryV_none_iff sig ctx acc children []
  · intro children hfail
    rw [show oneOfValidatorF children sig ctx acc =
      oneOfTryV sig ctx acc children [] from rfl]
    rw [oneOfTryV_allFail sig ctx acc children hfail []]
    refine ⟨_, rfl, ?_⟩
    have := oneOfFold_flatten_perm sig ctx acc children [] (by simp)
    simpa using this
  · intro pre rest v d cctx child val hun hpre hv hd
    rw [show oneOfDeserializerF (pre ++ (v, d) :: rest) sig ctx acc =
      (match oneOfUnwrap ctx acc with
       | some (cctx, child) =>
         oneOfTryD sig cctx child (pre ++ (v, d) :: rest) []
       | none =>
         .error (.mk (.oneOfDeserFailed sig
           ((pre ++ (v, d) :: rest).map
             (fun _ => .mk (.jsTypeError "undefined child") false))) false)) from rfl]
    rw [hun]
    exact oneOfTryD_first sig cctx child pre v d rest [] val hpre hv hd
  · intro vA vB dA dB cctx child a hun hvA hvB hdA
    rw [show oneOfDeserializerF [(vA, dA), (vB, dB)] sig ctx acc =
      (match oneOfUnwrap ctx acc with
       | some (cctx, child) => oneOfTryD sig cctx child [(vA, dA), (vB, dB)] []
       | none =>
         .error (.mk (.oneOfDeserFailed sig
           ([(vA, dA), (vB, dB)].map
             (fun _ => .mk (.jsTypeError "undefined child") false))) false)) from rfl]
    rw [hun]
    simp only [oneOfTryD, hvA, hdA]

/-- Closed instance of C3: with two alternatives that both validate a
numeric literal, the union's deserializer returns the first alternative's
interpretation. -/
theorem claim_C3_oneof_ordering_witness :
    oneOfDeserializerF
      [(fun _ _ => none, fun _ _ => .ok (.num 5)),
       (fun _ _ => none, fun _ _ => .ok (.num 7))] "A|B" [] (numNode 1) =
      .ok (.num 5) :=
  (claim_C3_oneof_ordering "A|B" [] (numNode 1)).2.2.2
    (fun _ _ => none) (fun _ _ => none) (fun _ _ => .ok (.num 5))
    (fun _ _ => .ok (.num 7)) [] (numNode 1) (.num 5) rfl rfl rfl rfl

/-- C4: for a `TObject` with a declared field set, on an object-shaped
input the validator collects in one pass exactly the declaratively
specified error list `tobjDeclaredErrs` — for each declared field its
validator's simplified error when the field is present and fails, a
`missing field` error when it is absent and not `Maybe`-wrapped (absent
`Maybe` fields are silently accepted), plus an `unknown field` error for
each input key outside the field set — and, whenever that list is
non-empty, returns exactly one composed error enumerating every failing
sub-key (it never stops at the first sub-failure); when the list is empty
it defers to the base validator registered under `":object"`. -/
theorem claim_C4_tobject_aggregation
    (baseValidators : List (String × Option ValidatorF)) (signature : String)
    (fields : List (String × Bool × ValidatorF)) (ctx : List Node) (acc : Node)
    (hTy : acc.typeName = ":object")
    (hObj : jsTypeof acc.rawValue = "object")
    (hArr : isJsArray acc.rawValue = false)
    (hNull : isJsNull acc.rawValue = false) :
    ((tobjDeclaredErrs fields ctx acc).isEmpty = false →
       tobjValidatorF baseValidators signature fields ctx acc =
         some (.mk (.composedV
           ("expected object with signature `" ++ signature ++
             "`, validation failed with errors") (tobjDeclaredErrs fields ctx acc)) false)) ∧
    ((tobjDeclaredErrs fields ctx acc).isEmpty = true →
       tobjValidatorF baseValidators signature fields ctx acc =
         (match tableVal baseValidators ":object" with
          | some v => v ctx acc
          | none => none)) := by
  have hkey : tobjValidatorF baseValidators signature fields ctx acc =
      (if !(tobjDeclaredErrs fields ctx acc).isEmpty then
        some (.mk (.composedV
          ("expected object with signature `" ++ signature ++
            "`, validation failed with errors") (tobjDeclaredErrs fields ctx acc)) false)
       else match tableVal baseValidators acc.typeName with
            | some v => v ctx acc
            | none => none) := by
    unfold tobjValidatorF
    dsimp only
    rw [if_pos hTy]
    dsimp only
    rw [if_neg (by simp [hTy, hObj])]
    rw [if_neg (by simp [hArr])]
    rw [if_neg (by simp [hObj])]
    rw [if_neg (by simp [hNull])]
    rw [tobjFieldsV_spec ctx acc fields []]
    rfl
  constructor
  · intro h
    rw [hkey, if_pos (by simp [h])]
  · intro h
    rw [hkey, if_neg (by simp [h]), hTy]

/-- Closed instance of C4: declared fields `a` (required, passing) and `b`
(optional, absent), input `{a: 1, c: 2}` — validation yields the single
composed error whose only part is the `unknown field "c"` record. -/
theorem claim_C4_tobject_aggregation_witness :
    tobjValidatorF [] "sig"
      [("a", false, fun _ _ => none), ("b", true, fun _ _ => none)] []
      (.objNode [.pairNode "a" (some (.prim ":number" (.num 1) "")),
                 .pairNode "c" (some (.prim ":number" (.num 2) ""))]) =
      some (.mk (.composedV
        ("expected object with signature `" ++ "sig" ++
          "`, validation failed with errors")
        [("c", .mk (.unknownField "c") true)]) false) := by
  have h := (claim_C4_tobject_aggregation [] "sig"
      [("a", false, fun _ _ => none), ("b", true, fun _ _ => none)] []
      (.objNode [.pairNode "a" (some (.prim ":number" (.num 1) "")),
                 .pairNode "c" (some (.prim ":number" (.num 2) ""))])
      rfl rfl rfl rfl).1 rfl
  rw [h]
  rfl

/-- Concrete record of the root-branch behaviour: retagging a root Object
node that owns one child replaces that child (in the root's own child list)
with the freshly allocated childless Typed wrapper, and in the resulting
arena no node holds the root as a child — the root is never wrapped. -/
theorem setTypeName_root_compound_orphans :
    setTypeName rootObjArena 0 "T" =
      [{ kind := .object, typeName := ":object", parent := none,
         childIdx := none, childList := [2] },
       { kind := .primitive, typeName := ":number", parent := some 0,
         childIdx := none, childList := [] },
       { kind := .typed, typeName := "T", parent := none,
         childIdx := none, childList := [] }] ∧
    (setTypeName rootObjArena 0 "T").all
      (fun nd => !(decide (nd.childIdx = some 0) || nd.childList.contains 0)) = true := by
  constructor
  · rfl
  · rfl

/-- C8: the actual effect of the `typeName` setter (`ast.ts` 48-64).  On a
Typed node the tag is replaced in place, as claimed.  On a non-Typed node
with a parent the claimed splice happens only when the parent is a
`CompoundNode` (class/array/object): the wrapper replaces the node at its
index in the parent's stored child array; when the parent is a
`PrimitiveNode`, `ProtoNode` or `PairNode` the assignment lands in the
`children` getter's fresh array and the arena only grows by the discarded
wrapper — no retagging occurs.  On a root `CompoundNode` with a first
child, the node is not wrapped: its own first child is overwritten with a
childless Typed wrapper (the follow-up `children[0].children[0] = this`
write is lost in the wrapper's getter-produced array). -/
theorem claim_C8_retagging (a : List ANode) (i : Nat) (nd : ANode)
    (name : String) (hnd : a[i]? = some nd) :
    (nd.kind = .typed →
      setTypeName a i name = a.set i { nd with typeName := name }) ∧
    (∀ p pd pIdx, nd.kind ≠ .typed → nd.parent = some p → a[p]? = some pd →
      (aChildren a p).findIdx? (fun j => j = i) = some pIdx →
      ((pd.kind = .classK ∨ pd.kind = .array ∨ pd.kind = .object →
        setTypeName a i name =
          (a ++ [c8Wrapper name i]).set p
            { pd with childList := jsSetIdx pd.childList pIdx a.length }) ∧
       (pd.kind = .primitive ∨ pd.kind = .proto ∨ pd.kind = .pair →
        setTypeName a i name = a ++ [c8Wrapper name i]))) ∧
    (∀ c, (nd.kind = .classK ∨ nd.kind = .array ∨ nd.kind = .object) →
      nd.parent = none → nd.childList[0]? = some c →
      setTypeName a i name =
        (a ++ [c8RootWrapper name]).set i
          { nd with childList := jsSetIdx nd.childList 0 a.length }) := by
  have hlt : i < a.length := by
    rcases List.getElem?_eq_some.mp hnd with ⟨h, _⟩
    exact h
  refine ⟨?_, ?_, ?_⟩
  · intro h
    unfold setTypeName
    rw [hnd]
    dsimp only
    rw [if_neg (by simp [h])]
  · intro p pd pIdx hk hp hpd hfind
    have hplt : p < a.length := by
      rcases List.getElem?_eq_some.mp hpd with ⟨h, _⟩
      exact h
    have happ : (a ++ [c8Wrapper name i])[p]? = some pd := by
      rw [List.getElem?_append, if_pos hplt]
      exact hpd
    constructor
    · intro hkind
      unfold setTypeName
      rw [hnd]
      dsimp only
      rw [if_pos hk, hp]
      dsimp only
      rw [hfind]
      dsimp only
      unfold aAssignChild
      rw [happ]
      dsimp only
      rcases hkind with h | h | h <;> rw [h]
    · intro hkind
      unfold setTypeName
      rw [hnd]
      dsimp only
      rw [if_pos hk, hp]
      dsimp only
      rw [hfind]
      dsimp only
      unfold aAssignChild
      rw [happ]
      dsimp only
      rcases hkind with h | h | h <;> rw [h]
  · intro c hkind hp hc
    have hne : nd.kind ≠ NodeKind.typed := by
      rcases hkind with h | h | h <;> simp [h]
    have hch : aChildren a i = nd.childList := by
      unfold aChildren
      rw [hnd]
      dsimp only
      rcases hkind with h | h | h <;> rw [h]
    have happi : (a ++ [c8RootWrapper name])[i]? = some nd := by
      rw [List.getElem?_append, if_pos hlt]
      exact hnd
    have ha2 : aAssignChild (a ++ [c8RootWrapper name]) i 0 a.length =
        (a ++ [c8RootWrapper name]).set i
          { nd with childList := jsSetIdx nd.childList 0 a.length } := by
      unfold aAssignChild
      rw [happi]
      dsimp only
      rcases hkind with h | h | h <;> rw [h]
    have hset : ((a ++ [c8RootWrapper name]).set i
        { nd with childList := jsSetIdx nd.childList 0 a.length })[i]? =
        some { nd with childList := jsSetIdx nd.childList 0 a.length } := by
      rw [List.getElem?_set_self]
      · rw [List.length_append]
        exact Nat.lt_of_lt_of_le hlt (Nat.le_add_right _ _)
    have hjs0 : (jsSetIdx nd.childList 0 a.length)[0]? = some a.length := by
      cases hcl : nd.childList with
      | nil => rw [hcl] at hc; cases hc
      | cons c0 rest => simp [jsSetIdx]
    have hread : (aChildren ((a ++ [c8RootWrapper name]).set i
        { nd with childList := jsSetIdx nd.childList 0 a.length }) i)[0]? =
        some a.length := by
      unfold aChildren
      rw [hset]
      dsimp only
      rcases hkind with h | h | h <;> (rw [h]; exact hjs0)
    have hw0 : ((a ++ [c8RootWrapper name]).set i
        { nd with childList := jsSetIdx nd.childList 0 a.length })[a.length]? =
        some (c8RootWrapper name) := by
      rw [List.getElem?_set_ne (Nat.ne_of_lt hlt)]
      rw [List.getElem?_append, if_neg (Nat.lt_irrefl _), Nat.sub_self]
      rfl
    have hfin : aAssignChild ((a ++ [c8RootWrapper name]).set i
        { nd with childList := jsSetIdx nd.childList 0 a.length }) a.length 0 i =
        (a ++ [c8RootWrapper name]).set i
          { nd with childList := jsSetIdx nd.childList 0 a.length } := by
      unfold aAssignChild
      rw [hw0]
    unfold setTypeName
    rw [hnd]
    dsimp only
    rw [if_pos hne, hp]
    dsimp only
    rw [hch, hc]
    dsimp only
    rw [ha2, hread]
    dsimp only
    rw [hfin, hp]

/-- Closed instance of C8: retagging the second child of an Array parent
splices the wrapper at index 1 of the parent's stored child list, leaving
the first sibling untouched. -/
theorem claim_C8_retagging_witness :
    setTypeName arrParentArena 2 "T" =
      [{ kind := .array, typeName := ":array", parent := none,
         childIdx := none, childList := [1, 3] },
       { kind := .primitive, typeName := ":number", parent := some 0,
         childIdx := none, childList := [] },
       { kind := .primitive, typeName := ":string", parent := some 0,
         childIdx := none, childList := [] },
       { kind := .typed, typeName := "T", parent := none,
         childIdx := some 2, childList := [] }] := by
  have h := ((claim_C8_retagging arrParentArena 2
      { kind := .primitive, typeName := ":string", parent := some 0,
        childIdx := none, childList := [] } "T" rfl).2.1
      0 { kind := .array, typeName := ":array", parent := none,
          childIdx := none, childList := [1, 2] } 1
      (by simp) rfl rfl rfl).1 (Or.inr (Or.inl rfl))
  rw [h]
  rfl

end TxJSON
